import Mathlib

/-!
Verification development for the session-process-monitor repository
(telemetry sampling, recording/replay subsystem).

Modelling conventions, shared by all definitions below:

* Rust machine integers are modelled as `Nat` (for `u8`/`u32`/`u64`/`usize`)
  or `Int` (for `i64`); where the on-disk encoding truncates, an explicit
  `% 2 ^ w` appears, and well-formedness predicates record the range used
  by the Rust types.
* Rust `String` / `PathBuf` values are modelled as their byte sequences,
  `List Nat` (one entry per byte).  ASCII literals from the source are
  produced by `ascii`.
* Rust `f64` values appear in two roles.  For serialization (struct fields
  written to disk byte-for-byte) an `f64` is modelled as its 64-bit IEEE-754
  bit pattern, a `Nat` below `2 ^ 64`; the container format copies those
  bits verbatim, so this is exact.  For the arithmetic of
  `compute_growth_rate` and the cgroup quota division, `f64` is modelled as
  `ℚ`; every operation in the claims at issue (sums/differences of integers
  below 2^53, divisions by powers of two, the example divisions) is exact
  in binary floating point, so the rational model agrees with the `f64`
  computation on them.  Structures holding floats are parameterised by the
  float model `F`.
* `Instant` is modelled as `ℚ`, seconds on a monotone clock;
  `Instant::duration_since` saturates at zero, as in Rust.
* The process-wide environment (files read, env vars, the process list,
  success/failure of each file-write step) is passed explicitly as
  arguments, so every function of the embedding is a pure function of its
  inputs.
-/

/-- Bytes of an ASCII string literal from the source (each char one byte). -/
def ascii (s : String) : List Nat :=
  s.data.map Char.toNat

/-- ASCII decimal digits, structurally recursive on a fuel bound (the fuel
`n + 1` always suffices since the argument shrinks by a factor of 10). -/
def decimalBytesF : Nat → Nat → List Nat
  | 0, _ => []
  | fuel + 1, n =>
      if n < 10 then [n + 48]
      else decimalBytesF fuel (n / 10) ++ [n % 10 + 48]

/-- ASCII decimal digits of a natural number, as produced by Rust's
integer `Display` (used for `format!` in identifiers and messages). -/
def decimalBytes (n : Nat) : List Nat :=
  decimalBytesF (n + 1) n

/-! ## Data model (src/app.rs, src/recording.rs)

`F` is the model of `f64` (either `Nat` bit patterns for serialization or
`ℚ` for arithmetic). -/

/-- `ProcessSnapshot` (src/app.rs lines 10-23). -/
structure ProcessSnapshot (F : Type) where
  pid : Nat
  name : List Nat
  cmdline : List Nat
  cpu_percent : F
  uss : Nat
  pss : Nat
  rss : Nat
  is_system : Bool
  growth_rate : Option F
  disk_read_rate : Option F
  disk_write_rate : Option F
  deriving Repr, DecidableEq

/-- `PodMemorySnapshot` (src/app.rs lines 25-31); no float fields. -/
structure PodMemorySnapshot where
  cgroup_usage : Nat
  cgroup_limit : Option Nat
  rss_sum : Nat
  terminator_threshold_percent : Nat
  deriving Repr, DecidableEq

/-- `RecordingSnapshot` (src/recording.rs lines 14-20). -/
structure RecordingSnapshot (F : Type) where
  timestamp : Nat
  processes : List (ProcessSnapshot F)
  pod_memory : PodMemorySnapshot
  cpu_cores : Option F
  deriving Repr, DecidableEq

/-- `RecordingMetadata` (src/recording.rs lines 22-31); `file_path` is the
byte sequence of the `PathBuf`. -/
structure RecordingMetadata where
  id : List Nat
  start_time : Nat
  end_time : Nat
  trigger_pid : Nat
  trigger_name : List Nat
  snapshot_count : Nat
  file_path : List Nat
  deriving Repr, DecidableEq

/-- `Recording` (src/recording.rs lines 33-37). -/
structure Recording (F : Type) where
  metadata : RecordingMetadata
  snapshots : List (RecordingSnapshot F)
  deriving Repr, DecidableEq

/-! ## RecordingManager state and the ring buffer (src/recording.rs) -/

/-- `RecordingManager` (src/recording.rs lines 39-45).  The `VecDeque`
buffer is a list with the front at the head; `last_saved_pids` is the
`HashMap<u32, Instant>` as an association list. -/
structure RecordingManager (F : Type) where
  buffer : List (RecordingSnapshot F)
  max_snapshots : Nat
  recordings_dir : List Nat
  last_saved_pids : List (Nat × ℚ)
  deriving Repr, DecidableEq

/-- `SPM_RECORDING_WINDOW` parsing in `RecordingManager::new`
(src/recording.rs lines 49-52): the env value parsed as `usize`,
defaulting to 300.  `parseEnvNat` is the caller-supplied parse result. -/
def recording_window (env : Option Nat) : Nat :=
  env.getD 300

/-- The `while self.buffer.len() > self.max_snapshots { self.buffer.pop_front(); }`
loop of `add_snapshot` (src/recording.rs lines 66-68). -/
def shrinkToCap (cap : Nat) : List α → List α
  | [] => []
  | x :: xs => if xs.length + 1 > cap then shrinkToCap cap xs else x :: xs

/-- `RecordingManager::add_snapshot` (src/recording.rs lines 64-69):
push to the back, then pop from the front while over capacity. -/
def RecordingManager.add_snapshot (m : RecordingManager F)
    (snapshot : RecordingSnapshot F) : RecordingManager F :=
  { m with buffer := shrinkToCap m.max_snapshots (m.buffer ++ [snapshot]) }

theorem shrinkToCap_eq_drop (cap : Nat) (l : List α) :
    shrinkToCap cap l = l.drop (l.length - cap) := by
  induction l with
  | nil => simp [shrinkToCap]
  | cons x xs ih =>
    simp only [shrinkToCap]
    by_cases h : xs.length + 1 > cap
    · rw [if_pos h, ih]
      have hd : (x :: xs).length - cap = (xs.length - cap) + 1 := by
        simp only [List.length_cons]; omega
      rw [hd, List.drop_succ_cons]
    · rw [if_neg h]
      have hd : (x :: xs).length - cap = 0 := by
        simp only [List.length_cons]; omega
      rw [hd, List.drop_zero]

theorem add_snapshot_buffer (m : RecordingManager F) (s : RecordingSnapshot F) :
    (m.add_snapshot s).buffer =
      (m.buffer ++ [s]).drop ((m.buffer.length + 1) - m.max_snapshots) := by
  simp [RecordingManager.add_snapshot, shrinkToCap_eq_drop]

theorem foldl_add_snapshot_max (m : RecordingManager F)
    (xs : List (RecordingSnapshot F)) :
    (xs.foldl (fun acc s => acc.add_snapshot s) m).max_snapshots =
      m.max_snapshots := by
  induction xs generalizing m with
  | nil => rfl
  | cons s xs ih => rw [List.foldl_cons, ih]; rfl

theorem foldl_add_snapshot_buffer (m : RecordingManager F)
    (hstart : m.buffer = []) (xs : List (RecordingSnapshot F)) :
    (xs.foldl (fun acc s => acc.add_snapshot s) m).buffer =
      xs.drop (xs.length - m.max_snapshots) := by
  induction xs using List.reverseRecOn with
  | nil => simpa using hstart
  | append_singleton xs s ih =>
    rw [List.foldl_append, List.foldl_cons, List.foldl_nil,
      add_snapshot_buffer, ih, foldl_add_snapshot_max]
    by_cases hM : xs.length ≤ m.max_snapshots
    · have h0 : xs.length - m.max_snapshots = 0 := by omega
      rw [h0, List.drop_zero]
      congr 1
      simp only [List.length_append, List.length_cons, List.length_nil]
    · by_cases hZ : m.max_snapshots = 0
      · have h1 : (xs.drop (xs.length - m.max_snapshots)) = [] := by
          apply List.eq_nil_of_length_eq_zero
          simp only [List.length_drop]; omega
        rw [h1, hZ]
        simp [List.drop_length]
      · have hlenP : (xs.drop (xs.length - m.max_snapshots)).length
            = m.max_snapshots := by
          simp only [List.length_drop]; omega
        have hstep : (xs.drop (xs.length - m.max_snapshots)).length + 1
            - m.max_snapshots = 1 := by omega
        rw [hstep]
        have hle : 1 ≤ (xs.drop (xs.length - m.max_snapshots)).length := by
          omega
        rw [List.drop_append_of_le_length hle, List.drop_drop]
        have hle2 : (xs ++ [s]).length - m.max_snapshots ≤ xs.length := by
          simp only [List.length_append, List.length_cons, List.length_nil]
          omega
        rw [List.drop_append_of_le_length hle2]
        have hamount : (xs ++ [s]).length - m.max_snapshots
            = 1 + (xs.length - m.max_snapshots) := by
          simp only [List.length_append, List.length_cons, List.length_nil]
          omega
        rw [hamount, Nat.add_comm]

/-- C1: pushing any sequence of snapshots through `add_snapshot`, starting
from an empty buffer, never grows the buffer beyond `max_snapshots`
(default 300 when `SPM_RECORDING_WINDOW` is unset), evicts only from the
front, and leaves exactly the most recent `min capacity pushed` snapshots
in push order (the buffer is the length-`min cap n` suffix of the pushed
sequence). -/
theorem ring_buffer_bounded_and_evicts_oldest
    (m : RecordingManager F) (hstart : m.buffer = [])
    (xs : List (RecordingSnapshot F)) :
    ((xs.foldl (fun acc s => acc.add_snapshot s) m).buffer
        = xs.drop (xs.length - m.max_snapshots)
      ∧ (xs.foldl (fun acc s => acc.add_snapshot s) m).buffer.length
        = min m.max_snapshots xs.length
      ∧ (xs.foldl (fun acc s => acc.add_snapshot s) m).buffer.length
        ≤ m.max_snapshots)
    ∧ recording_window none = 300 := by
  refine ⟨⟨?_, ?_, ?_⟩, rfl⟩
  · exact foldl_add_snapshot_buffer m hstart xs
  · rw [foldl_add_snapshot_buffer m hstart xs]
    simp only [List.length_drop]
    omega
  · rw [foldl_add_snapshot_buffer m hstart xs]
    simp only [List.length_drop]
    omega

/-- Witness for C1 at a concrete manager and push sequence. -/
theorem ring_buffer_bounded_and_evicts_oldest_witness :
    (RecordingManager.buffer
      { buffer := ([] : List (RecordingSnapshot Nat)), max_snapshots := 2,
        recordings_dir := [], last_saved_pids := [] } = []) ∧
    (([{ timestamp := 1, processes := [], pod_memory :=
          { cgroup_usage := 0, cgroup_limit := none, rss_sum := 0,
            terminator_threshold_percent := 80 }, cpu_cores := none },
        { timestamp := 2, processes := [], pod_memory :=
          { cgroup_usage := 0, cgroup_limit := none, rss_sum := 0,
            terminator_threshold_percent := 80 }, cpu_cores := none },
        { timestamp := 3, processes := [], pod_memory :=
          { cgroup_usage := 0, cgroup_limit := none, rss_sum := 0,
            terminator_threshold_percent := 80 }, cpu_cores := none }] :
        List (RecordingSnapshot Nat)).foldl (fun acc s => acc.add_snapshot s)
        ({ buffer := [], max_snapshots := 2, recordings_dir := [],
           last_saved_pids := [] } : RecordingManager Nat)).buffer.length ≤ 2 := by
  have h := ring_buffer_bounded_and_evicts_oldest (F := Nat)
    { buffer := [], max_snapshots := 2, recordings_dir := [],
      last_saved_pids := [] } rfl
    [{ timestamp := 1, processes := [], pod_memory :=
        { cgroup_usage := 0, cgroup_limit := none, rss_sum := 0,
          terminator_threshold_percent := 80 }, cpu_cores := none },
      { timestamp := 2, processes := [], pod_memory :=
        { cgroup_usage := 0, cgroup_limit := none, rss_sum := 0,
          terminator_threshold_percent := 80 }, cpu_cores := none },
      { timestamp := 3, processes := [], pod_memory :=
        { cgroup_usage := 0, cgroup_limit := none, rss_sum := 0,
          terminator_threshold_percent := 80 }, cpu_cores := none }]
  exact ⟨rfl, h.1.2.2⟩

/-! ## save_recording (src/recording.rs lines 71-122)

The file-system side effects are made explicit: `SaveIo` says which step of
the `File::create` / `write_all` / `bincode::serialize` / `flush` chain is
the first to fail (each is consumed with `.ok()?` in the source, so the
first failure aborts with `None`).  The third component of the result is
the completed recording file (path and object written), present only when
the whole chain succeeds; a failed attempt may leave partial bytes on disk
but never a complete recording file, and is modelled as `none`. -/

/-- Outcome of the write chain in `save_recording`: either every step
succeeds (`ok`) or the named step is the first to fail. -/
inductive SaveIo
  | createFail
  | writeMagicFail
  | writeVersionFail
  | serializeFail
  | writeBodyFail
  | flushFail
  | ok
  deriving Repr, DecidableEq

/-- `Instant::duration_since`, which saturates at zero. -/
def durationSinceSat (now last : ℚ) : ℚ :=
  if now ≤ last then 0 else now - last

/-- `HashMap::insert` on the association-list model (replaces an existing
key's value, otherwise adds the pair). -/
def insertAssoc (l : List (Nat × α)) (k : Nat) (v : α) : List (Nat × α) :=
  if l.any (fun p => p.1 == k) then
    l.map (fun p => if p.1 == k then (k, v) else p)
  else (k, v) :: l

/-- The debounce test of `save_recording` (src/recording.rs lines 76-81):
the trigger PID has an entry in `last_saved_pids` less than
`Duration::from_secs(2)` old. -/
def RecordingManager.debounced (m : RecordingManager F) (trigger_pid : Nat)
    (now : ℚ) : Bool :=
  match m.last_saved_pids.lookup trigger_pid with
  | some last_saved => decide (durationSinceSat now last_saved < 2)
  | none => false

/-- `RecordingManager::save_recording` (src/recording.rs lines 71-122).
`now` is `Instant::now()`, `wall_secs` the epoch-seconds timestamp from
`SystemTime::now()`.  Returns the Rust return value, the updated manager,
and the completed file written (if any). -/
def RecordingManager.save_recording (m : RecordingManager F)
    (trigger_pid : Nat) (trigger_name : List Nat) (now : ℚ) (wall_secs : Nat)
    (io : SaveIo) :
    Option Nat × RecordingManager F × Option (List Nat × Recording F) :=
  if m.buffer.isEmpty then (none, m, none)
  else if m.debounced trigger_pid now then (none, m, none)
  else
    let id := ascii "recording_" ++ decimalBytes wall_secs ++ ascii "_"
      ++ decimalBytes trigger_pid
    let file_path := m.recordings_dir ++ ascii "/" ++ id ++ ascii ".bin"
    let start_time := (m.buffer.head?.map RecordingSnapshot.timestamp).getD wall_secs
    let end_time := (m.buffer.getLast?.map RecordingSnapshot.timestamp).getD wall_secs
    let metadata : RecordingMetadata :=
      { id := id, start_time := start_time, end_time := end_time,
        trigger_pid := trigger_pid, trigger_name := trigger_name,
        snapshot_count := m.buffer.length, file_path := file_path }
    let recording : Recording F := { metadata := metadata, snapshots := m.buffer }
    match io with
    | SaveIo.ok =>
        (some recording.snapshots.length,
         { m with last_saved_pids := insertAssoc m.last_saved_pids trigger_pid now },
         some (file_path, recording))
    | _ => (none, m, none)

/-- C2: `save_recording` returns `None` and writes no file on an empty
buffer, and when the same trigger PID has a successful save less than
2 seconds old; otherwise (write chain succeeding) it returns
`Some` of the buffer length, writes exactly one file holding a copy of the
entire buffer, and leaves the buffer itself intact. -/
theorem save_recording_none_cases_and_success (m : RecordingManager F)
    (trigger_pid : Nat) (trigger_name : List Nat) (now : ℚ) (wall_secs : Nat)
    (io : SaveIo) :
    (m.buffer = [] →
      m.save_recording trigger_pid trigger_name now wall_secs io = (none, m, none))
    ∧ (∀ last_saved, m.last_saved_pids.lookup trigger_pid = some last_saved →
        durationSinceSat now last_saved < 2 →
        m.save_recording trigger_pid trigger_name now wall_secs io = (none, m, none))
    ∧ (m.buffer ≠ [] → m.debounced trigger_pid now = false →
        (m.save_recording trigger_pid trigger_name now wall_secs SaveIo.ok).1
            = some m.buffer.length
        ∧ (m.save_recording trigger_pid trigger_name now wall_secs SaveIo.ok).2.1.buffer
            = m.buffer
        ∧ ∃ path rec,
            (m.save_recording trigger_pid trigger_name now wall_secs SaveIo.ok).2.2
              = some (path, rec)
            ∧ rec.snapshots = m.buffer) := by
  refine ⟨?_, ?_, ?_⟩
  · intro h
    simp [RecordingManager.save_recording, h]
  · intro last_saved hlook hlt
    have hdeb : m.debounced trigger_pid now = true := by
      simp [RecordingManager.debounced, hlook, hlt]
    by_cases hbuf : m.buffer.isEmpty
    · simp [RecordingManager.save_recording, hbuf]
    · simp [RecordingManager.save_recording, hbuf, hdeb]
  · intro hbuf hdeb
    have hbuf' : m.buffer.isEmpty = false := by
      simpa [List.isEmpty_iff] using hbuf
    refine ⟨?_, ?_, ?_⟩
    · simp [RecordingManager.save_recording, hbuf', hdeb]
    · simp [RecordingManager.save_recording, hbuf', hdeb]
    · simp only [RecordingManager.save_recording, hbuf', hdeb,
        Bool.false_eq_true, if_false]
      exact ⟨_, _, rfl, rfl⟩

/-- C10: if the write chain fails at any step after the empty-buffer and
debounce checks pass, `save_recording` returns `None`, and both the
debounce map and the ring buffer (indeed the whole manager) are unchanged;
the debounce timestamp is recorded only on full success. -/
theorem save_recording_failure_leaves_state (m : RecordingManager F)
    (trigger_pid : Nat) (trigger_name : List Nat) (now : ℚ) (wall_secs : Nat)
    (io : SaveIo) (hio : io ≠ SaveIo.ok)
    (hbuf : m.buffer ≠ []) (hdeb : m.debounced trigger_pid now = false) :
    m.save_recording trigger_pid trigger_name now wall_secs io
      = (none, m, none) := by
  have hbuf' : m.buffer.isEmpty = false := by
    simpa [List.isEmpty_iff] using hbuf
  cases io <;> simp [RecordingManager.save_recording, hbuf', hdeb] at hio ⊢

/-- A concrete one-snapshot manager used by witnesses. -/
def sampleSnapshot : RecordingSnapshot ℚ :=
  { timestamp := 100, processes := [], pod_memory :=
      { cgroup_usage := 0, cgroup_limit := none, rss_sum := 0,
        terminator_threshold_percent := 80 }, cpu_cores := none }

/-- A concrete manager used by witnesses. -/
def sampleManager : RecordingManager ℚ :=
  { buffer := [sampleSnapshot], max_snapshots := 300,
    recordings_dir := ascii "/tmp/rec", last_saved_pids := [] }

/-- Witness for C2 at the concrete manager. -/
theorem save_recording_none_cases_and_success_witness :
    sampleManager.buffer ≠ [] ∧ sampleManager.debounced 7 10 = false ∧
    (sampleManager.save_recording 7 (ascii "bash") 10 123 SaveIo.ok).1
      = some sampleManager.buffer.length := by
  refine ⟨by decide, by decide, ?_⟩
  exact ((save_recording_none_cases_and_success sampleManager 7 (ascii "bash")
    10 123 SaveIo.ok).2.2 (by decide) (by decide)).1

/-- Witness for C10 at the concrete manager and a failing write step. -/
theorem save_recording_failure_leaves_state_witness :
    sampleManager.save_recording 7 (ascii "bash") 10 123 SaveIo.flushFail
      = (none, sampleManager, none) :=
  save_recording_failure_leaves_state sampleManager 7 (ascii "bash") 10 123
    SaveIo.flushFail (by decide) (by decide) (by decide)

/-! ## The on-disk container format (src/recording.rs lines 11-12, 113-118,
211-234)

`save_recording` writes the 4-byte magic `b"SPMR"`, one version byte `1`,
then `bincode::serialize(&recording)`.  The payload encoding below models
bincode 1.x's default (legacy) configuration as used by the free functions
`bincode::serialize` / `bincode::deserialize`: fixed-width little-endian
integers, `u64` byte-length prefixes for strings and `u64` element-count
prefixes for sequences, a one-byte `0`/`1` tag for `Option`, one byte for
`bool`, struct fields in declaration order with no framing, `usize` as
`u64`, `f64` as the 8 little-endian bytes of its bit pattern (here the
`Nat` bit-pattern model written as a u64), and `PathBuf`/`String` as their
UTF-8 bytes.  Decoding tolerates trailing bytes, as bincode's legacy
`deserialize` does. -/

def MAGIC : List Nat := ascii "SPMR"

def VERSION : Nat := 1

def encU8 (n : Nat) : List Nat := [n % 2 ^ 8]

def encU32 (n : Nat) : List Nat :=
  [n % 2 ^ 8, n / 2 ^ 8 % 2 ^ 8, n / 2 ^ 16 % 2 ^ 8, n / 2 ^ 24 % 2 ^ 8]

def encU64 (n : Nat) : List Nat :=
  [n % 2 ^ 8, n / 2 ^ 8 % 2 ^ 8, n / 2 ^ 16 % 2 ^ 8, n / 2 ^ 24 % 2 ^ 8,
   n / 2 ^ 32 % 2 ^ 8, n / 2 ^ 40 % 2 ^ 8, n / 2 ^ 48 % 2 ^ 8,
   n / 2 ^ 56 % 2 ^ 8]

def encBool (b : Bool) : List Nat := [if b then 1 else 0]

/-- String / PathBuf payload: u64 byte length then the bytes. -/
def encBytes (s : List Nat) : List Nat := encU64 s.length ++ s

def encOption (f : α → List Nat) : Option α → List Nat
  | none => [0]
  | some x => 1 :: f x

/-- Sequence payload: u64 element count then the encoded elements. -/
def encListOf (f : α → List Nat) (xs : List α) : List Nat :=
  encU64 xs.length ++ (xs.map f).flatten

def decU8 : List Nat → Option (Nat × List Nat)
  | b0 :: rest => some (b0, rest)
  | _ => none

def decU32 : List Nat → Option (Nat × List Nat)
  | b0 :: b1 :: b2 :: b3 :: rest =>
      some (b0 + 2 ^ 8 * b1 + 2 ^ 16 * b2 + 2 ^ 24 * b3, rest)
  | _ => none

def decU64 : List Nat → Option (Nat × List Nat)
  | b0 :: b1 :: b2 :: b3 :: b4 :: b5 :: b6 :: b7 :: rest =>
      some (b0 + 2 ^ 8 * b1 + 2 ^ 16 * b2 + 2 ^ 24 * b3 + 2 ^ 32 * b4
        + 2 ^ 40 * b5 + 2 ^ 48 * b6 + 2 ^ 56 * b7, rest)
  | _ => none

def decBool : List Nat → Option (Bool × List Nat)
  | 0 :: rest => some (false, rest)
  | 1 :: rest => some (true, rest)
  | _ => none

def decTake (n : Nat) (l : List Nat) : Option (List Nat × List Nat) :=
  if n ≤ l.length then some (l.take n, l.drop n) else none

def decBytes (l : List Nat) : Option (List Nat × List Nat) := do
  let (n, l) ← decU64 l
  decTake n l

def decOption (f : List Nat → Option (α × List Nat)) :
    List Nat → Option (Option α × List Nat)
  | 0 :: rest => some (none, rest)
  | 1 :: rest => (f rest).map (fun p => (some p.1, p.2))
  | _ => none

def decCount (f : List Nat → Option (α × List Nat)) :
    Nat → List Nat → Option (List α × List Nat)
  | 0, l => some ([], l)
  | n + 1, l => do
      let (x, l) ← f l
      let (xs, l) ← decCount f n l
      pure (x :: xs, l)

def decListOf (f : List Nat → Option (α × List Nat)) (l : List Nat) :
    Option (List α × List Nat) := do
  let (n, l) ← decU64 l
  decCount f n l

theorem decU8_encU8 (n : Nat) (h : n < 2 ^ 8) (r : List Nat) :
    decU8 (encU8 n ++ r) = some (n, r) := by
  simp only [encU8, List.cons_append, List.nil_append, decU8]
  congr 2
  omega

theorem decU32_encU32 (n : Nat) (h : n < 2 ^ 32) (r : List Nat) :
    decU32 (encU32 n ++ r) = some (n, r) := by
  simp only [encU32, List.cons_append, List.nil_append, decU32]
  congr 2
  omega

theorem decU64_encU64 (n : Nat) (h : n < 2 ^ 64) (r : List Nat) :
    decU64 (encU64 n ++ r) = some (n, r) := by
  simp only [encU64, List.cons_append, List.nil_append, decU64]
  congr 2
  omega

theorem decBool_encBool (b : Bool) (r : List Nat) :
    decBool (encBool b ++ r) = some (b, r) := by
  cases b <;> simp [encBool, decBool]

theorem decTake_append (s r : List Nat) :
    decTake s.length (s ++ r) = some (s, r) := by
  simp [decTake, List.take_left, List.drop_left]

theorem decBytes_encBytes (s : List Nat) (h : s.length < 2 ^ 64)
    (r : List Nat) : decBytes (encBytes s ++ r) = some (s, r) := by
  simp only [encBytes, decBytes, List.append_assoc]
  rw [decU64_encU64 s.length h]
  simpa using decTake_append s r

theorem decOption_encOption (f : α → List Nat)
    (g : List Nat → Option (α × List Nat)) (x : Option α) (r : List Nat)
    (hrt : ∀ y, x = some y → g (f y ++ r) = some (y, r)) :
    decOption g (encOption f x ++ r) = some (x, r) := by
  cases x with
  | none => simp [encOption, decOption]
  | some y =>
      simp only [encOption, List.cons_append, decOption]
      rw [hrt y rfl]
      rfl

theorem decCount_encList (f : α → List Nat)
    (g : List Nat → Option (α × List Nat)) (xs : List α) (r : List Nat)
    (hrt : ∀ y ∈ xs, ∀ r', g (f y ++ r') = some (y, r')) :
    decCount g xs.length ((xs.map f).flatten ++ r) = some (xs, r) := by
  induction xs with
  | nil => simp [decCount]
  | cons x xs ih =>
      simp only [List.map_cons, List.flatten_cons, List.length_cons, decCount,
        List.append_assoc]
      rw [hrt x (by simp)]
      simp only [Option.bind_eq_bind, Option.some_bind]
      rw [ih (fun y hy r' => hrt y (by simp [hy]) r')]
      rfl

theorem decListOf_encListOf (f : α → List Nat)
    (g : List Nat → Option (α × List Nat)) (xs : List α)
    (h : xs.length < 2 ^ 64) (r : List Nat)
    (hrt : ∀ y ∈ xs, ∀ r', g (f y ++ r') = some (y, r')) :
    decListOf g (encListOf f xs ++ r) = some (xs, r) := by
  simp only [encListOf, decListOf, List.append_assoc]
  rw [decU64_encU64 xs.length h]
  simpa using decCount_encList f g xs r hrt

/-! ### Serialization of the Recording object graph (`F = Nat`, floats as
bit patterns), field order as declared in the Rust structs. -/

def encProcess (p : ProcessSnapshot Nat) : List Nat :=
  encU32 p.pid ++ encBytes p.name ++ encBytes p.cmdline
    ++ encU64 p.cpu_percent ++ encU64 p.uss ++ encU64 p.pss ++ encU64 p.rss
    ++ encBool p.is_system ++ encOption encU64 p.growth_rate
    ++ encOption encU64 p.disk_read_rate ++ encOption encU64 p.disk_write_rate

def encPod (p : PodMemorySnapshot) : List Nat :=
  encU64 p.cgroup_usage ++ encOption encU64 p.cgroup_limit
    ++ encU64 p.rss_sum ++ encU8 p.terminator_threshold_percent

def encSnap (s : RecordingSnapshot Nat) : List Nat :=
  encU64 s.timestamp ++ encListOf encProcess s.processes
    ++ encPod s.pod_memory ++ encOption encU64 s.cpu_cores

def encMeta (m : RecordingMetadata) : List Nat :=
  encBytes m.id ++ encU64 m.start_time ++ encU64 m.end_time
    ++ encU32 m.trigger_pid ++ encBytes m.trigger_name
    ++ encU64 m.snapshot_count ++ encBytes m.file_path

def encRecording (r : Recording Nat) : List Nat :=
  encMeta r.metadata ++ encListOf encSnap r.snapshots

def decProcess (l : List Nat) : Option (ProcessSnapshot Nat × List Nat) := do
  let (pid, l) ← decU32 l
  let (name, l) ← decBytes l
  let (cmdline, l) ← decBytes l
  let (cpu_percent, l) ← decU64 l
  let (uss, l) ← decU64 l
  let (pss, l) ← decU64 l
  let (rss, l) ← decU64 l
  let (is_system, l) ← decBool l
  let (growth_rate, l) ← decOption decU64 l
  let (disk_read_rate, l) ← decOption decU64 l
  let (disk_write_rate, l) ← decOption decU64 l
  pure ({ pid := pid, name := name, cmdline := cmdline,
          cpu_percent := cpu_percent, uss := uss, pss := pss, rss := rss,
          is_system := is_system, growth_rate := growth_rate,
          disk_read_rate := disk_read_rate,
          disk_write_rate := disk_write_rate }, l)

def decPod (l : List Nat) : Option (PodMemorySnapshot × List Nat) := do
  let (cgroup_usage, l) ← decU64 l
  let (cgroup_limit, l) ← decOption decU64 l
  let (rss_sum, l) ← decU64 l
  let (threshold, l) ← decU8 l
  pure ({ cgroup_usage := cgroup_usage, cgroup_limit := cgroup_limit,
          rss_sum := rss_sum, terminator_threshold_percent := threshold }, l)

def decSnap (l : List Nat) : Option (RecordingSnapshot Nat × List Nat) := do
  let (timestamp, l) ← decU64 l
  let (processes, l) ← decListOf decProcess l
  let (pod_memory, l) ← decPod l
  let (cpu_cores, l) ← decOption decU64 l
  pure ({ timestamp := timestamp, processes := processes,
          pod_memory := pod_memory, cpu_cores := cpu_cores }, l)

def decMeta (l : List Nat) : Option (RecordingMetadata × List Nat) := do
  let (id, l) ← decBytes l
  let (start_time, l) ← decU64 l
  let (end_time, l) ← decU64 l
  let (trigger_pid, l) ← decU32 l
  let (trigger_name, l) ← decBytes l
  let (snapshot_count, l) ← decU64 l
  let (file_path, l) ← decBytes l
  pure ({ id := id, start_time := start_time, end_time := end_time,
          trigger_pid := trigger_pid, trigger_name := trigger_name,
          snapshot_count := snapshot_count, file_path := file_path }, l)

def decRecording (l : List Nat) : Option (Recording Nat × List Nat) := do
  let (metadata, l) ← decMeta l
  let (snapshots, l) ← decListOf decSnap l
  pure ({ metadata := metadata, snapshots := snapshots }, l)

/-! ### Well-formedness: the numeric ranges guaranteed by the Rust types
(`u32`/`u64`/`usize`/`u8` fields, and `Vec`/`String` lengths, which a Rust
process cannot grow to `2 ^ 64`). -/

def WFProcess (p : ProcessSnapshot Nat) : Prop :=
  p.pid < 2 ^ 32 ∧ p.name.length < 2 ^ 64 ∧ p.cmdline.length < 2 ^ 64
    ∧ p.cpu_percent < 2 ^ 64 ∧ p.uss < 2 ^ 64 ∧ p.pss < 2 ^ 64
    ∧ p.rss < 2 ^ 64 ∧ p.growth_rate.getD 0 < 2 ^ 64
    ∧ p.disk_read_rate.getD 0 < 2 ^ 64 ∧ p.disk_write_rate.getD 0 < 2 ^ 64

def WFPod (p : PodMemorySnapshot) : Prop :=
  p.cgroup_usage < 2 ^ 64 ∧ p.cgroup_limit.getD 0 < 2 ^ 64
    ∧ p.rss_sum < 2 ^ 64 ∧ p.terminator_threshold_percent < 2 ^ 8

def WFSnap (s : RecordingSnapshot Nat) : Prop :=
  s.timestamp < 2 ^ 64 ∧ s.processes.length < 2 ^ 64
    ∧ (∀ p ∈ s.processes, WFProcess p) ∧ WFPod s.pod_memory
    ∧ s.cpu_cores.getD 0 < 2 ^ 64

def WFMeta (m : RecordingMetadata) : Prop :=
  m.id.length < 2 ^ 64 ∧ m.start_time < 2 ^ 64 ∧ m.end_time < 2 ^ 64
    ∧ m.trigger_pid < 2 ^ 32 ∧ m.trigger_name.length < 2 ^ 64
    ∧ m.snapshot_count < 2 ^ 64 ∧ m.file_path.length < 2 ^ 64

def WFRecording (r : Recording Nat) : Prop :=
  WFMeta r.metadata ∧ r.snapshots.length < 2 ^ 64
    ∧ ∀ s ∈ r.snapshots, WFSnap s

instance : DecidablePred WFProcess := fun p => by
  unfold WFProcess; infer_instance

instance : DecidablePred WFPod := fun p => by
  unfold WFPod; infer_instance

instance : DecidablePred WFSnap := fun s => by
  unfold WFSnap; infer_instance

instance : DecidablePred WFMeta := fun m => by
  unfold WFMeta; infer_instance

instance : DecidablePred WFRecording := fun r => by
  unfold WFRecording; infer_instance

theorem decOptU64_enc (x : Option Nat) (h : x.getD 0 < 2 ^ 64) (r : List Nat) :
    decOption decU64 (encOption encU64 x ++ r) = some (x, r) := by
  apply decOption_encOption
  intro y hy
  subst hy
  exact decU64_encU64 y (by simpa using h) r

set_option maxHeartbeats 1000000 in
theorem decProcess_encProcess (p : ProcessSnapshot Nat) (h : WFProcess p)
    (r : List Nat) : decProcess (encProcess p ++ r) = some (p, r) := by
  obtain ⟨h1, h2, h3, h4, h5, h6, h7, h8, h9, h10⟩ := h
  simp only [encProcess, List.append_assoc, decProcess]
  rw [decU32_encU32 _ h1]
  simp only [Option.bind_eq_bind, Option.some_bind]
  rw [decBytes_encBytes _ h2]
  simp only [Option.some_bind]
  rw [decBytes_encBytes _ h3]
  simp only [Option.some_bind]
  rw [decU64_encU64 _ h4]
  simp only [Option.some_bind]
  rw [decU64_encU64 _ h5]
  simp only [Option.some_bind]
  rw [decU64_encU64 _ h6]
  simp only [Option.some_bind]
  rw [decU64_encU64 _ h7]
  simp only [Option.some_bind]
  rw [decBool_encBool]
  simp only [Option.some_bind]
  rw [decOptU64_enc _ h8]
  simp only [Option.some_bind]
  rw [decOptU64_enc _ h9]
  simp only [Option.some_bind]
  rw [decOptU64_enc _ h10]
  rfl

theorem decPod_encPod (p : PodMemorySnapshot) (h : WFPod p) (r : List Nat) :
    decPod (encPod p ++ r) = some (p, r) := by
  obtain ⟨h1, h2, h3, h4⟩ := h
  simp only [encPod, List.append_assoc, decPod]
  rw [decU64_encU64 _ h1]
  simp only [Option.bind_eq_bind, Option.some_bind]
  rw [decOptU64_enc _ h2]
  simp only [Option.some_bind]
  rw [decU64_encU64 _ h3]
  simp only [Option.some_bind]
  rw [decU8_encU8 _ h4]
  rfl

theorem decSnap_encSnap (s : RecordingSnapshot Nat) (h : WFSnap s)
    (r : List Nat) : decSnap (encSnap s ++ r) = some (s, r) := by
  obtain ⟨h1, h2, h3, h4, h5⟩ := h
  simp only [encSnap, List.append_assoc, decSnap]
  rw [decU64_encU64 _ h1]
  simp only [Option.bind_eq_bind, Option.some_bind]
  rw [decListOf_encListOf encProcess decProcess _ h2 _
    (fun y hy r' => decProcess_encProcess y (h3 y hy) r')]
  simp only [Option.some_bind]
  rw [decPod_encPod _ h4]
  simp only [Option.some_bind]
  rw [decOptU64_enc _ h5]
  rfl

theorem decMeta_encMeta (m : RecordingMetadata) (h : WFMeta m)
    (r : List Nat) : decMeta (encMeta m ++ r) = some (m, r) := by
  obtain ⟨h1, h2, h3, h4, h5, h6, h7⟩ := h
  simp only [encMeta, List.append_assoc, decMeta]
  rw [decBytes_encBytes _ h1]
  simp only [Option.bind_eq_bind, Option.some_bind]
  rw [decU64_encU64 _ h2]
  simp only [Option.some_bind]
  rw [decU64_encU64 _ h3]
  simp only [Option.some_bind]
  rw [decU32_encU32 _ h4]
  simp only [Option.some_bind]
  rw [decBytes_encBytes _ h5]
  simp only [Option.some_bind]
  rw [decU64_encU64 _ h6]
  simp only [Option.some_bind]
  rw [decBytes_encBytes _ h7]
  rfl

theorem decRecording_encRecording (rec : Recording Nat) (h : WFRecording rec)
    (r : List Nat) : decRecording (encRecording rec ++ r) = some (rec, r) := by
  obtain ⟨h1, h2, h3⟩ := h
  simp only [encRecording, List.append_assoc, decRecording]
  rw [decMeta_encMeta _ h1]
  simp only [Option.bind_eq_bind, Option.some_bind]
  rw [decListOf_encListOf encSnap decSnap _ h2 _
    (fun y hy r' => decSnap_encSnap y (h3 y hy) r')]
  rfl

/-! ### Reading recording files back (src/recording.rs lines 211-234) -/

/-- `io::ErrorKind` values that `read_recording` can produce. -/
inductive IoErrorKind
  | unexpectedEof
  | invalidData
  | notFound
  deriving Repr, DecidableEq

/-- An `io::Error`: kind plus message. -/
structure IoError where
  kind : IoErrorKind
  msg : String
  deriving Repr, DecidableEq

/-- The byte content `save_recording` writes for a recording: magic, then
version, then the bincode payload (src/recording.rs lines 113-118). -/
def recordingFileBytes (rec : Recording Nat) : List Nat :=
  MAGIC ++ [VERSION] ++ encRecording rec

/-- `RecordingManager::read_recording` (src/recording.rs lines 211-234)
applied to the byte content of a file at `path`: `read_exact` of the
5-byte header (UnexpectedEof if the file is shorter), magic check, version
check, `bincode::deserialize` of the remaining bytes (its error text
varies; the model uses a fixed stand-in message), and the overwrite of
`metadata.file_path` with the path the file was read from. -/
def read_recording (contents : List Nat) (path : List Nat) :
    Except IoError (Recording Nat) :=
  match contents with
  | b0 :: b1 :: b2 :: b3 :: b4 :: data =>
      if [b0, b1, b2, b3] ≠ MAGIC then
        Except.error ⟨IoErrorKind.invalidData, "invalid recording magic"⟩
      else if b4 ≠ VERSION then
        Except.error ⟨IoErrorKind.invalidData, "unsupported recording version"⟩
      else
        match decRecording data with
        | some (rec, _) =>
            Except.ok
              { rec with metadata := { rec.metadata with file_path := path } }
        | none =>
            Except.error ⟨IoErrorKind.invalidData, "bincode deserialize error"⟩
  | _ => Except.error ⟨IoErrorKind.unexpectedEof, "failed to fill whole buffer"⟩

/-- `RecordingManager::load_recording` (src/recording.rs lines 145-148):
rebuild the path from the identifier and read it.  `fs` maps a path to the
content of the file stored there, if any. -/
def RecordingManager.load_recording (m : RecordingManager Nat) (id : List Nat)
    (fs : List Nat → Option (List Nat)) : Except IoError (Recording Nat) :=
  let path := m.recordings_dir ++ ascii "/" ++ (id ++ ascii ".bin")
  match fs path with
  | some contents => read_recording contents path
  | none => Except.error ⟨IoErrorKind.notFound, "No such file"⟩

theorem decimalBytesF_length_le (fuel n k : Nat) (hk : 0 < k)
    (h : n < 10 ^ k) : (decimalBytesF fuel n).length ≤ k := by
  induction fuel generalizing n k with
  | zero => simp [decimalBytesF]
  | succ fuel ih =>
    simp only [decimalBytesF]
    by_cases h10 : n < 10
    · rw [if_pos h10]
      simpa using hk
    · rw [if_neg h10]
      have hk2 : 2 ≤ k := by
        by_contra hc
        have hk1 : k = 1 := by omega
        subst hk1
        simp only [pow_one] at h
        omega
      have hpow : 10 ^ k = 10 * 10 ^ (k - 1) := by
        conv_lhs => rw [show k = (k - 1) + 1 by omega]
        rw [pow_succ]
        ring
      have hdiv : n / 10 < 10 ^ (k - 1) := by omega
      have := ih (n / 10) (k - 1) (by omega) hdiv
      simp only [List.length_append, List.length_cons, List.length_nil]
      omega

theorem decimalBytes_length_le (n k : Nat) (hk : 0 < k) (h : n < 10 ^ k) :
    (decimalBytes n).length ≤ k :=
  decimalBytesF_length_le (n + 1) n k hk h

theorem decimalBytes_length_lt_u64 (n : Nat) (h : n < 2 ^ 64) :
    (decimalBytes n).length ≤ 20 :=
  decimalBytes_length_le n 20 (by omega) (by omega)

/-- C3: a recording written by a successful `save_recording` and loaded
back through `load_recording` with the same identifier yields the same
`Recording` value: every metadata field (including the `file_path` that
`read_recording` overwrites, since save stored exactly that path) and the
full ordered snapshot sequence.  Hypotheses state the Rust-type ranges
(`u32` pid, `u64` epoch seconds, lengths representable in `u64`) and that
the file system returns the bytes the save wrote. -/
theorem save_then_load_roundtrip (m : RecordingManager Nat)
    (trigger_pid : Nat) (trigger_name : List Nat) (now : ℚ) (wall_secs : Nat)
    (hpid : trigger_pid < 2 ^ 32) (hsecs : wall_secs < 2 ^ 64)
    (hname : trigger_name.length < 2 ^ 64)
    (hdir : m.recordings_dir.length < 2 ^ 32)
    (hbufwf : ∀ s ∈ m.buffer, WFSnap s) (hbuflen : m.buffer.length < 2 ^ 64)
    (hbuf : m.buffer ≠ []) (hdeb : m.debounced trigger_pid now = false)
    (path : List Nat) (rec : Recording Nat)
    (hsave : (m.save_recording trigger_pid trigger_name now wall_secs
        SaveIo.ok).2.2 = some (path, rec))
    (fs : List Nat → Option (List Nat))
    (hfs : fs path = some (recordingFileBytes rec)) :
    ((m.save_recording trigger_pid trigger_name now wall_secs
        SaveIo.ok).2.1.load_recording rec.metadata.id fs = Except.ok rec)
    ∧ rec.snapshots = m.buffer := by
  have hbuf' : m.buffer.isEmpty = false := by
    simpa [List.isEmpty_iff] using hbuf
  simp only [RecordingManager.save_recording, hbuf', hdeb,
    Bool.false_eq_true, if_false, Option.some.injEq, Prod.mk.injEq] at hsave
  obtain ⟨hpath, hrec⟩ := hsave
  subst hrec
  subst hpath
  have e1 : (ascii "recording_").length = 10 := rfl
  have e2 : (ascii "_").length = 1 := rfl
  have e3 : (ascii "/").length = 1 := rfl
  have e4 : (ascii ".bin").length = 4 := rfl
  have h1 := decimalBytes_length_lt_u64 wall_secs hsecs
  have h2 := decimalBytes_length_lt_u64 trigger_pid (by omega)
  have hwf : WFRecording
      { metadata :=
          { id := ascii "recording_" ++ decimalBytes wall_secs ++ ascii "_"
              ++ decimalBytes trigger_pid,
            start_time :=
              (Option.map RecordingSnapshot.timestamp m.buffer.head?).getD
                wall_secs,
            end_time :=
              (Option.map RecordingSnapshot.timestamp m.buffer.getLast?).getD
                wall_secs,
            trigger_pid := trigger_pid, trigger_name := trigger_name,
            snapshot_count := m.buffer.length,
            file_path := m.recordings_dir ++ ascii "/"
              ++ (ascii "recording_" ++ decimalBytes wall_secs ++ ascii "_"
                ++ decimalBytes trigger_pid) ++ ascii ".bin" },
        snapshots := m.buffer } := by
    refine ⟨⟨?_, ?_, ?_, ?_, ?_, ?_, ?_⟩, hbuflen, hbufwf⟩
    · simp only [List.length_append, e1, e2]
      omega
    · cases hh : m.buffer.head? with
      | none => simpa [hh] using hsecs
      | some s =>
          have hmem : s ∈ m.buffer := List.mem_of_mem_head? (by simp [hh])
          simpa [hh] using (hbufwf s hmem).1
    · cases hh : m.buffer.getLast? with
      | none => simpa [hh] using hsecs
      | some s =>
          have hmem : s ∈ m.buffer := List.mem_of_getLast?_eq_some hh
          simpa [hh] using (hbufwf s hmem).1
    · exact hpid
    · exact hname
    · exact hbuflen
    · simp only [List.length_append, e1, e2, e3, e4]
      omega
  refine ⟨?_, rfl⟩
  have hdirsame : (m.save_recording trigger_pid trigger_name now wall_secs
      SaveIo.ok).2.1.recordings_dir = m.recordings_dir := by
    simp [RecordingManager.save_recording, hbuf', hdeb]
  simp only [RecordingManager.load_recording, hdirsame]
  have hpatheq : m.recordings_dir ++ ascii "/"
      ++ ((ascii "recording_" ++ decimalBytes wall_secs ++ ascii "_"
          ++ decimalBytes trigger_pid) ++ ascii ".bin")
      = m.recordings_dir ++ ascii "/"
      ++ (ascii "recording_" ++ decimalBytes wall_secs ++ ascii "_"
          ++ decimalBytes trigger_pid) ++ ascii ".bin" := by
    simp [List.append_assoc]
  rw [hpatheq, hfs]
  have hdec := decRecording_encRecording _ hwf []
  rw [List.append_nil] at hdec
  have hform : ∀ payload : List Nat, MAGIC ++ [VERSION] ++ payload
      = 83 :: 80 :: 77 :: 82 :: 1 :: payload := fun _ => rfl
  simp only [recordingFileBytes, hform, read_recording]
  rw [if_neg (by decide), if_neg (by decide), hdec]

/-- A concrete well-formed snapshot over the bit-pattern float model. -/
def sampleSnapshotN : RecordingSnapshot Nat :=
  { timestamp := 100,
    processes := [{ pid := 42, name := ascii "python",
                    cmdline := ascii "python app.py",
                    cpu_percent := 0, uss := 1024, pss := 2048, rss := 4096,
                    is_system := false, growth_rate := none,
                    disk_read_rate := none, disk_write_rate := some 5 }],
    pod_memory := { cgroup_usage := 10, cgroup_limit := some 20,
                    rss_sum := 4096, terminator_threshold_percent := 80 },
    cpu_cores := some 7 }

/-- A concrete manager over the bit-pattern float model. -/
def c3_manager : RecordingManager Nat :=
  { buffer := [sampleSnapshotN], max_snapshots := 300,
    recordings_dir := ascii "/tmp/rec", last_saved_pids := [] }

/-- The path `save_recording` generates for `c3_manager`, PID 7, epoch 123. -/
def c3_path : List Nat :=
  c3_manager.recordings_dir ++ ascii "/"
    ++ (ascii "recording_" ++ decimalBytes 123 ++ ascii "_" ++ decimalBytes 7)
    ++ ascii ".bin"

/-- The recording `save_recording` builds for `c3_manager`, PID 7, epoch 123. -/
def c3_rec : Recording Nat :=
  { metadata :=
      { id := ascii "recording_" ++ decimalBytes 123 ++ ascii "_"
          ++ decimalBytes 7,
        start_time := 100, end_time := 100, trigger_pid := 7,
        trigger_name := ascii "bash", snapshot_count := 1,
        file_path := c3_path },
    snapshots := [sampleSnapshotN] }

/-- Witness for C3 at the concrete manager, with the file system holding
exactly the bytes the save wrote. -/
theorem save_then_load_roundtrip_witness :
    ((c3_manager.save_recording 7 (ascii "bash") 10 123
        SaveIo.ok).2.1.load_recording c3_rec.metadata.id
        (fun q => if q = c3_path then some (recordingFileBytes c3_rec)
          else none) = Except.ok c3_rec)
    ∧ c3_rec.snapshots = c3_manager.buffer :=
  save_then_load_roundtrip c3_manager 7 (ascii "bash") 10 123
    (of_decide_eq_true rfl) (of_decide_eq_true rfl) (of_decide_eq_true rfl)
    (of_decide_eq_true rfl) (of_decide_eq_true rfl) (of_decide_eq_true rfl)
    (of_decide_eq_true rfl) (of_decide_eq_true rfl)
    c3_path c3_rec rfl _ (by simp)

/-- C7: `read_recording` on an arbitrary byte sequence: a file shorter than
the 5-byte header fails with UnexpectedEof; wrong magic, wrong version,
and an undecodable payload each fail with a distinguishable InvalidData
error; and a successful result only arises from a complete successful
payload decode (no silent truncation).  The function is total, so no input
panics. -/
theorem read_recording_rejects_invalid (contents path : List Nat) :
    (contents.length < 5 →
      read_recording contents path
        = Except.error ⟨IoErrorKind.unexpectedEof, "failed to fill whole buffer"⟩)
    ∧ (∀ b0 b1 b2 b3 b4 data, contents = b0 :: b1 :: b2 :: b3 :: b4 :: data →
        ([b0, b1, b2, b3] ≠ MAGIC →
          read_recording contents path
            = Except.error ⟨IoErrorKind.invalidData, "invalid recording magic"⟩)
        ∧ ([b0, b1, b2, b3] = MAGIC → b4 ≠ VERSION →
          read_recording contents path
            = Except.error
                ⟨IoErrorKind.invalidData, "unsupported recording version"⟩)
        ∧ ([b0, b1, b2, b3] = MAGIC → b4 = VERSION → decRecording data = none →
          read_recording contents path
            = Except.error
                ⟨IoErrorKind.invalidData, "bincode deserialize error"⟩))
    ∧ (∀ rec, read_recording contents path = Except.ok rec →
        ∃ rec₀ rest, decRecording (contents.drop 5) = some (rec₀, rest)
          ∧ rec = { rec₀ with
              metadata := { rec₀.metadata with file_path := path } }) := by
  rcases contents with _ | ⟨b0, _ | ⟨b1, _ | ⟨b2, _ | ⟨b3, _ | ⟨b4, data⟩⟩⟩⟩⟩
  case nil | cons.nil | cons.cons.nil | cons.cons.cons.nil
    | cons.cons.cons.cons.nil =>
    refine ⟨fun _ => rfl, fun b0' b1' b2' b3' b4' data' heq => ?_,
      fun rec hok => ?_⟩ <;> simp_all [read_recording]
  · refine ⟨?_, ?_, ?_⟩
    · intro h
      simp only [List.length_cons] at h
      omega
    · intro b0' b1' b2' b3' b4' data' heq
      obtain ⟨rfl, rfl, rfl, rfl, rfl, rfl⟩ :
          b0 = b0' ∧ b1 = b1' ∧ b2 = b2' ∧ b3 = b3' ∧ b4 = b4'
            ∧ data = data' := by
        injection heq with e0 rest0
        injection rest0 with e1 rest1
        injection rest1 with e2 rest2
        injection rest2 with e3 rest3
        injection rest3 with e4 rest4
        exact ⟨e0, e1, e2, e3, e4, rest4⟩
      refine ⟨fun hmagic => ?_, fun hmagic hver => ?_,
        fun hmagic hver hdec => ?_⟩
      · simp only [read_recording]
        rw [if_pos hmagic]
      · simp only [read_recording]
        rw [if_neg (by simpa using hmagic), if_pos hver]
      · simp only [read_recording]
        rw [if_neg (by simpa using hmagic), if_neg (by simpa using hver), hdec]
    · intro rec hok
      simp only [read_recording] at hok
      by_cases hmagic : [b0, b1, b2, b3] ≠ MAGIC
      · rw [if_pos hmagic] at hok
        cases hok
      · rw [if_neg hmagic] at hok
        by_cases hver : b4 ≠ VERSION
        · rw [if_pos hver] at hok
          cases hok
        · rw [if_neg hver] at hok
          cases hdec : decRecording data with
          | none =>
              rw [hdec] at hok
              cases hok
          | some p =>
              rw [hdec] at hok
              refine ⟨p.1, p.2, ?_, ?_⟩
              · simpa using hdec
              · cases hok
                rfl

/-- Witness for C7: a 5-byte file with the wrong magic is rejected with
the invalid-magic error. -/
theorem read_recording_rejects_invalid_witness :
    read_recording [0, 0, 0, 0, 1] []
      = Except.error ⟨IoErrorKind.invalidData, "invalid recording magic"⟩ :=
  (((read_recording_rejects_invalid [0, 0, 0, 0, 1] []).2.1
    0 0 0 0 1 [] rfl).1) (by decide)

/-! ## Replay engine (src/replay.rs, src/main.rs lines 293-310) -/

/-- `PlaybackSpeed` (src/replay.rs lines 35-42). -/
inductive PlaybackSpeed
  | half
  | normal
  | double
  | fast
  | veryFast
  deriving Repr, DecidableEq

/-- `PlaybackSpeed::interval_ms` (src/replay.rs lines 45-53). -/
def PlaybackSpeed.interval_ms : PlaybackSpeed → Nat
  | half => 2000
  | normal => 1000
  | double => 500
  | fast => 200
  | veryFast => 100

/-- `PlaybackSpeed::next` (src/replay.rs lines 65-73), saturating at the
fast end. -/
def PlaybackSpeed.next : PlaybackSpeed → PlaybackSpeed
  | half => normal
  | normal => double
  | double => fast
  | fast => veryFast
  | veryFast => veryFast

/-- `PlaybackSpeed::prev` (src/replay.rs lines 75-83), saturating at the
slow end. -/
def PlaybackSpeed.prev : PlaybackSpeed → PlaybackSpeed
  | half => half
  | normal => half
  | double => normal
  | fast => double
  | veryFast => fast

/-- `ReplayState` (src/replay.rs lines 18-25). -/
structure ReplayState (F : Type) where
  recording : Recording F
  current_index : Nat
  speed : PlaybackSpeed
  playing : Bool
  last_advance_time : ℚ
  deriving Repr, DecidableEq

/-- The autonomous-advance check run once per outer-loop frame
(src/main.rs lines 293-310): only while playing, when the elapsed time
since the anchor reaches the speed's interval, either pause (empty
recording, or already at the last index) or advance by one and reset the
anchor.  `now` is the `Instant::now()` used for the new anchor. -/
def replay_advance_frame (s : ReplayState F) (now : ℚ) : ReplayState F :=
  if s.playing then
    if durationSinceSat now s.last_advance_time
        ≥ (s.speed.interval_ms : ℚ) / 1000 then
      if s.recording.snapshots.isEmpty then { s with playing := false }
      else
        let max_index := s.recording.snapshots.length - 1
        if s.current_index < max_index then
          { s with current_index := s.current_index + 1,
                   last_advance_time := now }
        else { s with playing := false }
    else s
  else s

/-- One frame while Playing, interval elapsed, not at the last index:
advance by one and reset the anchor. -/
theorem replay_advance_frame_advances (s : ReplayState F) (now : ℚ)
    (hp : s.playing = true)
    (he : durationSinceSat now s.last_advance_time
      ≥ (s.speed.interval_ms : ℚ) / 1000)
    (hne : s.recording.snapshots.isEmpty = false)
    (hidx : s.current_index < s.recording.snapshots.length - 1) :
    replay_advance_frame s now
      = { s with current_index := s.current_index + 1,
                 last_advance_time := now } := by
  simp only [replay_advance_frame, hp, if_true, hne, Bool.false_eq_true,
    if_false]
  rw [if_pos he, if_pos hidx]

/-- One frame while Playing, interval elapsed, at the last index: pause. -/
theorem replay_advance_frame_pauses_at_end (s : ReplayState F) (now : ℚ)
    (hp : s.playing = true)
    (he : durationSinceSat now s.last_advance_time
      ≥ (s.speed.interval_ms : ℚ) / 1000)
    (hne : s.recording.snapshots.isEmpty = false)
    (hidx : ¬ s.current_index < s.recording.snapshots.length - 1) :
    replay_advance_frame s now = { s with playing := false } := by
  simp only [replay_advance_frame, hp, if_true, hne, Bool.false_eq_true,
    if_false]
  rw [if_pos he, if_neg hidx]

/-- A concrete 5-snapshot recording over the rational float model. -/
def c4_recording : Recording ℚ :=
  { metadata :=
      { id := ascii "recording_1_1", start_time := 0, end_time := 0,
        trigger_pid := 1, trigger_name := ascii "x", snapshot_count := 5,
        file_path := [] },
    snapshots := List.replicate 5 sampleSnapshot }

/-- The C4 initial state: index 0, Playing, Normal speed, anchor 0. -/
def c4_state0 : ReplayState ℚ :=
  { recording := c4_recording, current_index := 0,
    speed := PlaybackSpeed.normal, playing := true, last_advance_time := 0 }

/-- One Normal-speed frame on a 5-snapshot recording below index 4:
advance by one. -/
theorem replay_step_normal (rec : Recording ℚ) (h5 : rec.snapshots.length = 5)
    (idx : Nat) (anchor now : ℚ) (hnow : anchor + 1 ≤ now) (hidx : idx < 4) :
    replay_advance_frame
      { recording := rec, current_index := idx,
        speed := PlaybackSpeed.normal, playing := true,
        last_advance_time := anchor } now
    = { recording := rec, current_index := idx + 1,
        speed := PlaybackSpeed.normal, playing := true,
        last_advance_time := now } := by
  have hne : rec.snapshots.isEmpty = false := by
    have hnil : rec.snapshots ≠ [] := by
      intro h
      rw [h] at h5
      simp at h5
    simpa [List.isEmpty_iff] using hnil
  have hint : ((PlaybackSpeed.normal.interval_ms : ℚ)) / 1000 = 1 := by
    norm_num [PlaybackSpeed.interval_ms]
  have hnotle : ¬ now ≤ anchor := by linarith
  have helapsed : durationSinceSat now anchor
      ≥ ((PlaybackSpeed.normal.interval_ms : ℚ)) / 1000 := by
    rw [hint]
    simp only [durationSinceSat, if_neg hnotle]
    linarith
  simp only [replay_advance_frame, if_true]
  rw [if_pos helapsed]
  simp only [hne, Bool.false_eq_true, if_false, h5]
  rw [if_pos (by omega : idx < 5 - 1)]

/-- Counterexample to C4 as stated: on a 5-snapshot recording, after the
Normal interval (1 s) has elapsed four times (frames at t = 1, 2, 3, 4)
the index is 4 but the engine is still Playing — it has not transitioned
to Paused, contradicting the claim that four elapsed intervals leave the
state Paused. -/
theorem replay_four_intervals_still_playing :
    (replay_advance_frame (replay_advance_frame (replay_advance_frame
        (replay_advance_frame c4_state0 1) 2) 3) 4).current_index = 4
    ∧ (replay_advance_frame (replay_advance_frame (replay_advance_frame
        (replay_advance_frame c4_state0 1) 2) 3) 4).playing = true := by
  have h5 : c4_recording.snapshots.length = 5 := by
    simp [c4_recording]
  have hs0 : c4_state0
      = { recording := c4_recording, current_index := 0,
          speed := PlaybackSpeed.normal, playing := true,
          last_advance_time := 0 } := rfl
  rw [hs0,
    replay_step_normal c4_recording h5 0 0 1 (by norm_num) (by omega),
    replay_step_normal c4_recording h5 (0 + 1) 1 2 (by norm_num) (by omega),
    replay_step_normal c4_recording h5 (0 + 1 + 1) 2 3 (by norm_num)
      (by omega),
    replay_step_normal c4_recording h5 (0 + 1 + 1 + 1) 3 4 (by norm_num)
      (by omega)]
  exact ⟨by norm_num, rfl⟩

/-- C4 (amended): on a 5-snapshot recording starting at index 0, Playing,
speed Normal, with no user input, four elapsed intervals bring the index
to 4 with the engine still Playing; the fifth elapsed interval transitions
to Paused without moving the index or changing the speed; and once paused,
any further frame leaves the state entirely unchanged. -/
theorem replay_pauses_on_fifth_interval (rec : Recording ℚ)
    (h5 : rec.snapshots.length = 5) (t1 t2 t3 t4 t5 : ℚ)
    (h1 : 1 ≤ t1) (h2 : t1 + 1 ≤ t2) (h3 : t2 + 1 ≤ t3) (h4 : t3 + 1 ≤ t4)
    (h5t : t4 + 1 ≤ t5) :
    ∀ s0 : ReplayState ℚ,
      s0 = { recording := rec, current_index := 0,
             speed := PlaybackSpeed.normal, playing := true,
             last_advance_time := 0 } →
      ∀ s4, s4 = replay_advance_frame (replay_advance_frame
          (replay_advance_frame (replay_advance_frame s0 t1) t2) t3) t4 →
      (s4.current_index = 4 ∧ s4.playing = true)
      ∧ ((replay_advance_frame s4 t5).current_index = 4
          ∧ (replay_advance_frame s4 t5).playing = false
          ∧ (replay_advance_frame s4 t5).speed = PlaybackSpeed.normal)
      ∧ ∀ t6, replay_advance_frame (replay_advance_frame s4 t5) t6
          = replay_advance_frame s4 t5 := by
  have hne : rec.snapshots.isEmpty = false := by
    have hnil : rec.snapshots ≠ [] := by
      intro h
      rw [h] at h5
      simp at h5
    simpa [List.isEmpty_iff] using hnil
  have hint : ((PlaybackSpeed.normal.interval_ms : ℚ)) / 1000 = 1 := by
    norm_num [PlaybackSpeed.interval_ms]
  have step : ∀ (idx : Nat) (anchor now : ℚ), anchor + 1 ≤ now → idx < 4 →
      replay_advance_frame
        { recording := rec, current_index := idx,
          speed := PlaybackSpeed.normal, playing := true,
          last_advance_time := anchor } now
      = { recording := rec, current_index := idx + 1,
          speed := PlaybackSpeed.normal, playing := true,
          last_advance_time := now } := by
    intro idx anchor now hnow hidx
    have hnotle : ¬ now ≤ anchor := by linarith
    have helapsed : durationSinceSat now anchor
        ≥ ((PlaybackSpeed.normal.interval_ms : ℚ)) / 1000 := by
      rw [hint]
      simp only [durationSinceSat, if_neg hnotle]
      linarith
    simp only [replay_advance_frame, if_true]
    rw [if_pos helapsed]
    simp only [hne, Bool.false_eq_true, if_false, h5]
    rw [if_pos (by omega : idx < 5 - 1)]
  have pause : ∀ (anchor now : ℚ), anchor + 1 ≤ now →
      replay_advance_frame
        { recording := rec, current_index := 4,
          speed := PlaybackSpeed.normal, playing := true,
          last_advance_time := anchor } now
      = { recording := rec, current_index := 4,
          speed := PlaybackSpeed.normal, playing := false,
          last_advance_time := anchor } := by
    intro anchor now hnow
    have hnotle : ¬ now ≤ anchor := by linarith
    have helapsed : durationSinceSat now anchor
        ≥ ((PlaybackSpeed.normal.interval_ms : ℚ)) / 1000 := by
      rw [hint]
      simp only [durationSinceSat, if_neg hnotle]
      linarith
    simp only [replay_advance_frame, if_true]
    rw [if_pos helapsed]
    simp only [hne, Bool.false_eq_true, if_false, h5]
    rw [if_neg (by omega : ¬ (4 : Nat) < 5 - 1)]
  intro s0 hs0 s4 hs4
  subst hs0
  have e1 := step 0 0 t1 (by linarith) (by omega)
  have e2 := step 1 t1 t2 h2 (by omega)
  have e3 := step 2 t2 t3 h3 (by omega)
  have e4 := step 3 t3 t4 h4 (by omega)
  rw [e1, e2, e3, e4] at hs4
  subst hs4
  have e5 := pause t4 t5 h5t
  refine ⟨⟨rfl, rfl⟩, ?_, ?_⟩
  · rw [e5]
    exact ⟨rfl, rfl, rfl⟩
  · intro t6
    rw [e5]
    rfl

/-- Witness for the amended C4 at the concrete recording and frame times
1, 2, 3, 4, 5. -/
theorem replay_pauses_on_fifth_interval_witness :
    ((replay_advance_frame (replay_advance_frame (replay_advance_frame
        (replay_advance_frame c4_state0 1) 2) 3) 4).current_index = 4
      ∧ (replay_advance_frame (replay_advance_frame (replay_advance_frame
        (replay_advance_frame c4_state0 1) 2) 3) 4).playing = true)
    ∧ ((replay_advance_frame (replay_advance_frame (replay_advance_frame
        (replay_advance_frame (replay_advance_frame c4_state0 1) 2) 3) 4)
          5).current_index = 4
      ∧ (replay_advance_frame (replay_advance_frame (replay_advance_frame
        (replay_advance_frame (replay_advance_frame c4_state0 1) 2) 3) 4)
          5).playing = false
      ∧ (replay_advance_frame (replay_advance_frame (replay_advance_frame
        (replay_advance_frame (replay_advance_frame c4_state0 1) 2) 3) 4)
          5).speed = PlaybackSpeed.normal)
    ∧ ∀ t6, replay_advance_frame (replay_advance_frame (replay_advance_frame
        (replay_advance_frame (replay_advance_frame (replay_advance_frame
          c4_state0 1) 2) 3) 4) 5) t6
        = replay_advance_frame (replay_advance_frame (replay_advance_frame
          (replay_advance_frame (replay_advance_frame c4_state0 1) 2) 3) 4)
          5 :=
  replay_pauses_on_fifth_interval c4_recording rfl 1 2 3 4 5
    (by norm_num) (by norm_num) (by norm_num) (by norm_num) (by norm_num)
    c4_state0 rfl _ rfl

/-! ## Growth-rate computation (src/app.rs lines 255-271)

A growth window entry is `(Instant, u64)`: the sample instant in seconds
(`ℚ`) and the USS value in bytes.  All arithmetic in the claim at issue is
exact in `f64`, so the rational model coincides with the Rust computation
on it. -/

/-- `compute_growth_rate` (src/app.rs lines 255-271): `None` below 3
samples, `None` when the elapsed time from the oldest to the newest sample
is ≤ 0 (the `Instant` difference saturates at zero), otherwise the
two-point slope in MB/minute. -/
def compute_growth_rate (samples : List (ℚ × Nat)) : Option ℚ :=
  if samples.length < 3 then none
  else
    match samples.head?, samples.getLast? with
    | some first, some last =>
        let elapsed_seconds := durationSinceSat last.1 first.1
        if elapsed_seconds ≤ 0 then none
        else
          let elapsed_minutes := elapsed_seconds / 60
          if elapsed_minutes ≤ 0 then none
          else
            let delta_bytes : ℚ := (last.2 : ℚ) - (first.2 : ℚ)
            some (delta_bytes / 1024 / 1024 / elapsed_minutes)
    | _, _ => none

/-- C6: the growth rate is `None` for fewer than 3 samples or nonpositive
elapsed time, and otherwise equals the two-point slope
(newest − oldest bytes, converted to MB, divided by the elapsed minutes),
ignoring intermediate samples; on the spec's example
(t0, 100 MB), (t1, 100 MB), (t2, 160 MB) with t2 − t0 = 2 minutes the
rate is 30 MB/min. -/
theorem compute_growth_rate_spec (samples : List (ℚ × Nat)) :
    (samples.length < 3 → compute_growth_rate samples = none)
    ∧ (∀ first last, samples.head? = some first →
        samples.getLast? = some last → 3 ≤ samples.length →
        (durationSinceSat last.1 first.1 ≤ 0 →
          compute_growth_rate samples = none)
        ∧ (0 < durationSinceSat last.1 first.1 →
          compute_growth_rate samples
            = some (((last.2 : ℚ) - (first.2 : ℚ)) / 1024 / 1024
                / (durationSinceSat last.1 first.1 / 60))))
    ∧ compute_growth_rate [(0, 104857600), (60, 104857600), (120, 167772160)]
        = some 30 := by
  refine ⟨?_, ?_, ?_⟩
  · intro h
    simp [compute_growth_rate, h]
  · intro first last hfirst hlast hlen
    have hnotlt : ¬ samples.length < 3 := by omega
    refine ⟨?_, ?_⟩
    · intro hel
      simp only [compute_growth_rate, if_neg hnotlt, hfirst, hlast]
      rw [if_pos hel]
    · intro hel
      have h1 : ¬ durationSinceSat last.1 first.1 ≤ 0 := by linarith
      have h2 : ¬ durationSinceSat last.1 first.1 / 60 ≤ 0 := by
        intro hc
        have : durationSinceSat last.1 first.1 ≤ 0 := by linarith
        exact h1 this
      simp only [compute_growth_rate, if_neg hnotlt, hfirst, hlast]
      rw [if_neg h1, if_neg h2]
  · have hd : durationSinceSat (120 : ℚ) 0 = 120 := by
      norm_num [durationSinceSat]
    have hnotlt : ¬ ([((0 : ℚ), 104857600), (60, 104857600),
        (120, 167772160)]).length < 3 := by
      norm_num
    simp only [compute_growth_rate, if_neg hnotlt, List.head?_cons,
      List.getLast?_cons_cons, List.getLast?_singleton, hd]
    norm_num

/-- Witness for C6: a 3-sample window of 1 minute with 1 MB growth has
rate 1 MB/min, via the general theorem. -/
theorem compute_growth_rate_spec_witness :
    compute_growth_rate [(0, 0), (30, 0), (60, 1048576)] = some 1 := by
  have h := ((compute_growth_rate_spec
      [(0, 0), (30, 0), (60, 1048576)]).2.1 (0, 0) (60, 1048576)
      rfl rfl (by norm_num)).2 (by norm_num [durationSinceSat])
  rw [h]
  norm_num [durationSinceSat]

/-! ## Cgroup quota and memory probing (src/cgroup.rs)

The probed file system is explicit: each field holds the content of the
corresponding `/sys/fs/cgroup` file, or `none` when the file does not
exist (`Path::exists` is modelled as the field being `some`).  Number
parsing is an external-collaborator contract (spec §1 scopes `/proc` and
cgroup text parsing to "what numbers come out"): `parseF64?` models the
plain-decimal subset of Rust's `f64` grammar (optional sign, digits,
optional fraction), which covers every value a cgroup file can hold;
`parseNat?`/`parseInt?` model `u64`/`i64` parsing with their range
checks. -/

/-- The cgroup files read by src/cgroup.rs. -/
structure CgroupFs where
  cpu_max : Option String
  cpu_cfs_quota_us : Option String
  cpu_cfs_period_us : Option String
  memory_max : Option String
  memory_current : Option String
  memory_limit_in_bytes : Option String
  memory_usage_in_bytes : Option String
  deriving Repr, DecidableEq

/-- `CpuQuota` (src/cgroup.rs lines 26-29). -/
structure CpuQuota where
  cores : Option ℚ
  deriving Repr, DecidableEq

/-- `str::trim` on the character list of a string (ASCII whitespace, which
is all a cgroup file contains). -/
def trimChars (cs : List Char) : List Char :=
  ((cs.dropWhile Char.isWhitespace).reverse.dropWhile
    Char.isWhitespace).reverse

/-- `str::split_whitespace`: maximal nonempty runs between whitespace. -/
def splitWsChars (cs : List Char) : List (List Char) :=
  (cs.foldr
    (fun c acc =>
      if c.isWhitespace then [] :: acc
      else
        match acc with
        | [] => [[c]]
        | t :: ts => (c :: t) :: ts)
    []).filter (fun t => t ≠ [])

/-- Numeric value of a run of ASCII digits. -/
def digitsValN (l : List Char) : Nat :=
  l.foldl (fun acc c => acc * 10 + (c.toNat - 48)) 0

/-- `u64::from_str`: optional `+`, one or more digits, within range. -/
def parseNat? (s : List Char) : Option Nat :=
  let cs := match s with
    | '+' :: rest => rest
    | cs => cs
  if cs = [] then none
  else if cs.all Char.isDigit then
    let v := digitsValN cs
    if v < 2 ^ 64 then some v else none
  else none

/-- `i64::from_str`: optional sign, one or more digits, within range. -/
def parseInt? (s : List Char) : Option Int :=
  let (sign, cs) : Int × List Char := match s with
    | '+' :: rest => (1, rest)
    | '-' :: rest => (-1, rest)
    | cs => (1, cs)
  if cs = [] then none
  else if cs.all Char.isDigit then
    let v : Int := sign * digitsValN cs
    if -(2 ^ 63) ≤ v ∧ v < 2 ^ 63 then some v else none
  else none

/-- `f64::from_str` on the plain-decimal subset: optional sign, digits,
optional `.` and fraction digits (exact, as a rational). -/
def parseF64? (s : List Char) : Option ℚ :=
  let (sign, cs) : ℚ × List Char := match s with
    | '+' :: rest => (1, rest)
    | '-' :: rest => (-1, rest)
    | cs => (1, cs)
  let ip := cs.takeWhile Char.isDigit
  let rest := cs.dropWhile Char.isDigit
  match rest with
  | [] => if ip = [] then none else some (sign * (digitsValN ip : ℚ))
  | '.' :: fp =>
      if fp.all Char.isDigit ∧ (ip ≠ [] ∨ fp ≠ []) then
        some (sign * ((digitsValN ip : ℚ)
          + (digitsValN fp : ℚ) / 10 ^ fp.length))
      else none
  | _ => none

/-- `read_string` then `trim` then `parse::<u64>()` (src/cgroup.rs
lines 141-144). -/
def read_u64 (content : Option String) : Option Nat :=
  content.bind (fun c => parseNat? (trimChars c.data))

/-- `read_string` then `trim` then `parse::<i64>()` (src/cgroup.rs
lines 146-149). -/
def read_i64 (content : Option String) : Option Int :=
  content.bind (fun c => parseInt? (trimChars c.data))

/-- `read_threshold_percent` (src/cgroup.rs lines 96-101): the env var
parsed as `u8`, any failure giving 80. -/
def read_threshold_percent (env : Option String) : Nat :=
  match env with
  | some value =>
      match (parseNat? value.data).bind
          (fun v => if v < 2 ^ 8 then some v else none) with
      | some v => v
      | none => 80
  | none => 80

/-- `read_cpu_cgroup_v2` (src/cgroup.rs lines 41-75): split the trimmed
`cpu.max` content into whitespace-separated parts, require exactly two,
treat a literal `max` quota as unlimited, parse both as `f64`, reject a
nonpositive period, and return `quota / period`.  Note it does not check
the sign of the quota itself. -/
def read_cpu_cgroup_v2 (fs : CgroupFs) : CpuQuota :=
  match fs.cpu_max with
  | none => ⟨none⟩
  | some content =>
      match splitWsChars (trimChars content.data) with
      | [quota_str, period_str] =>
          if quota_str = "max".data then ⟨none⟩
          else
            match parseF64? quota_str, parseF64? period_str with
            | some quota, some period =>
                if period ≤ 0 then ⟨none⟩ else ⟨some (quota / period)⟩
            | _, _ => ⟨none⟩
      | _ => ⟨none⟩

/-- `read_cpu_cgroup_v1` (src/cgroup.rs lines 77-94): `i64` quota and
period from the two v1 files; both must be strictly positive. -/
def read_cpu_cgroup_v1 (fs : CgroupFs) : CpuQuota :=
  match read_i64 fs.cpu_cfs_quota_us with
  | none => ⟨none⟩
  | some quota =>
      match read_i64 fs.cpu_cfs_period_us with
      | none => ⟨none⟩
      | some period =>
          if quota ≤ 0 ∨ period ≤ 0 then ⟨none⟩
          else ⟨some ((quota : ℚ) / (period : ℚ))⟩

/-- `read_cpu_quota` (src/cgroup.rs lines 31-39): probe v2 `cpu.max`
first, then the v1 quota file, else no quota. -/
def read_cpu_quota (fs : CgroupFs) : CpuQuota :=
  if fs.cpu_max.isSome then read_cpu_cgroup_v2 fs
  else if fs.cpu_cfs_quota_us.isSome then read_cpu_cgroup_v1 fs
  else ⟨none⟩

/-- `read_cgroup_v2` (src/cgroup.rs lines 103-117): usage from
`memory.current` (0 on failure); limit from `memory.max`, where the
literal `max` means no limit. -/
def read_cgroup_v2 (fs : CgroupFs) : Nat × Option Nat :=
  let usage := (read_u64 fs.memory_current).getD 0
  let limit := match fs.memory_max with
    | some value =>
        if trimChars value.data = "max".data then none
        else parseNat? (trimChars value.data)
    | none => none
  (usage, limit)

/-- `read_cgroup_v1` (src/cgroup.rs lines 119-132): usage from
`memory.usage_in_bytes` (0 on failure); a limit strictly greater than
`1 << 62` is treated as "no limit". -/
def read_cgroup_v1 (fs : CgroupFs) : Nat × Option Nat :=
  let usage := (read_u64 fs.memory_usage_in_bytes).getD 0
  let limit := match read_u64 fs.memory_limit_in_bytes with
    | some value => if value > 2 ^ 62 then none else some value
    | none => none
  (usage, limit)

/-- `read_pod_memory` (src/cgroup.rs lines 7-24): v2 if `memory.max`
exists, else v1 if `memory.limit_in_bytes` exists, else usage 0 and no
limit. -/
def read_pod_memory (fs : CgroupFs) (threshold_env : Option String) :
    PodMemorySnapshot :=
  let threshold := read_threshold_percent threshold_env
  let ul :=
    if fs.memory_max.isSome then read_cgroup_v2 fs
    else if fs.memory_limit_in_bytes.isSome then read_cgroup_v1 fs
    else (0, none)
  { cgroup_usage := ul.1, cgroup_limit := ul.2, rss_sum := 0,
    terminator_threshold_percent := threshold }

/-- An otherwise-empty cgroup file system for concrete cases. -/
def emptyCgroupFs : CgroupFs :=
  { cpu_max := none, cpu_cfs_quota_us := none, cpu_cfs_period_us := none,
    memory_max := none, memory_current := none,
    memory_limit_in_bytes := none, memory_usage_in_bytes := none }

/-- Counterexample to C8 as stated: a cgroup-v2 `cpu.max` of
`0 100000` — a zero (non-positive) quota — still yields
`Some (0 / 100000) = Some 0` cores, because `read_cpu_cgroup_v2` checks
the sign of the period but never the quota; the claim says every
non-positive quota yields `None`. -/
theorem read_cpu_quota_zero_quota_counterexample :
    (read_cpu_quota { emptyCgroupFs with cpu_max := some "0 100000" }).cores
      = some 0 ∧ ¬ (0 : ℚ) > 0 := by
  constructor
  · have hdisp : read_cpu_quota
        { emptyCgroupFs with cpu_max := some "0 100000" }
        = read_cpu_cgroup_v2
          { emptyCgroupFs with cpu_max := some "0 100000" } := rfl
    rw [hdisp]
    have hsplit : splitWsChars (trimChars ("0 100000").data)
        = [['0'], ['1', '0', '0', '0', '0', '0']] := by decide
    simp only [read_cpu_cgroup_v2, hsplit]
    have hqv : parseF64? ['0']
        = some ((1 : ℚ) * ((digitsValN ['0'] : Nat) : ℚ)) := rfl
    have hpv : parseF64? ['1', '0', '0', '0', '0', '0']
        = some ((1 : ℚ) * ((digitsValN ['1', '0', '0', '0', '0', '0'] : Nat)
          : ℚ)) := rfl
    have hd0 : digitsValN ['0'] = 0 := by decide
    have hd1 : digitsValN ['1', '0', '0', '0', '0', '0'] = 100000 := by decide
    rw [if_neg (by decide : ¬ (['0'] = "max".data))]
    simp only [hqv, hpv, hd0, hd1]
    rw [if_neg (by push_cast; norm_num :
      ¬ (1 : ℚ) * ((100000 : Nat) : ℚ) ≤ 0)]
    congr 1
    push_cast
    norm_num
  · norm_num

/-- C8 (amended): the cgroup-v1 path returns `Some (quota / period)`
exactly when both values parse and both are strictly positive; the
cgroup-v2 path treats the literal `max` quota as `None` and rejects a
nonpositive period, but performs no positivity check on the quota itself,
returning `Some (quota / period)` for any parsed quota (zero or negative
included) once the period is positive; with neither file present the
result is `None`. -/
theorem read_cpu_quota_characterization (fs : CgroupFs) :
    (fs.cpu_max = none → fs.cpu_cfs_quota_us = none →
      (read_cpu_quota fs).cores = none)
    ∧ (∀ content, fs.cpu_max = some content →
        (∀ parts, splitWsChars (trimChars content.data) = parts →
          parts.length ≠ 2 → (read_cpu_quota fs).cores = none)
        ∧ (∀ q p, splitWsChars (trimChars content.data) = [q, p] →
            (q = "max".data → (read_cpu_quota fs).cores = none)
            ∧ (∀ qv pv, q ≠ "max".data → parseF64? q = some qv →
                parseF64? p = some pv →
                (pv ≤ 0 → (read_cpu_quota fs).cores = none)
                ∧ (0 < pv →
                    (read_cpu_quota fs).cores = some (qv / pv)))))
    ∧ (fs.cpu_max = none → fs.cpu_cfs_quota_us.isSome →
        ∀ qv pv, read_i64 fs.cpu_cfs_quota_us = some qv →
          read_i64 fs.cpu_cfs_period_us = some pv →
          ((qv ≤ 0 ∨ pv ≤ 0) → (read_cpu_quota fs).cores = none)
          ∧ (0 < qv → 0 < pv →
              (read_cpu_quota fs).cores = some ((qv : ℚ) / (pv : ℚ)))) := by
  refine ⟨?_, ?_, ?_⟩
  · intro h1 h2
    simp [read_cpu_quota, h1, h2]
  · intro content hc
    have hv2 : read_cpu_quota fs = read_cpu_cgroup_v2 fs := by
      simp [read_cpu_quota, hc]
    constructor
    · intro parts hparts hlen
      rw [hv2]
      simp only [read_cpu_cgroup_v2, hc, hparts]
      match parts, hlen with
      | [], _ => rfl
      | [_], _ => rfl
      | _ :: _ :: _ :: _, _ => rfl
      | [a, b], h => exact absurd rfl h
    · intro q p hsplit
      constructor
      · intro hmax
        rw [hv2]
        simp only [read_cpu_cgroup_v2, hc, hsplit]
        rw [if_pos hmax]
      · intro qv pv hmax hqv hpv
        constructor
        · intro hple
          rw [hv2]
          simp only [read_cpu_cgroup_v2, hc, hsplit, hqv, hpv]
          rw [if_neg hmax, if_pos hple]
        · intro hppos
          rw [hv2]
          simp only [read_cpu_cgroup_v2, hc, hsplit, hqv, hpv]
          rw [if_neg hmax, if_neg (by linarith : ¬ pv ≤ 0)]
  · intro h1 h2 qv pv hqv hpv
    have hv1 : read_cpu_quota fs = read_cpu_cgroup_v1 fs := by
      simp [read_cpu_quota, h1, h2]
    constructor
    · intro hle
      rw [hv1]
      simp only [read_cpu_cgroup_v1, hqv, hpv]
      rw [if_pos hle]
    · intro hq hp
      rw [hv1]
      simp only [read_cpu_cgroup_v1, hqv, hpv]
      rw [if_neg (by omega : ¬ (qv ≤ 0 ∨ pv ≤ 0))]

/-- Witness for the amended C8: a v1 pair 50000/100000 yields half a
core. -/
theorem read_cpu_quota_characterization_witness :
    (read_cpu_quota { emptyCgroupFs with
        cpu_cfs_quota_us := some "50000",
        cpu_cfs_period_us := some "100000" }).cores
      = some (((50000 : Int) : ℚ) / ((100000 : Int) : ℚ)) :=
  (((read_cpu_quota_characterization { emptyCgroupFs with
      cpu_cfs_quota_us := some "50000",
      cpu_cfs_period_us := some "100000" }).2.2 rfl (by decide)
    50000 100000 (by decide) (by decide)).2 (by decide) (by decide))

/-- Counterexample to C9 as stated: a v1 memory limit of exactly
`2 ^ 62 = 4611686018427387904` bytes — "at the sentinel" — is reported as
`Some (2 ^ 62)`, because `read_cgroup_v1` only treats values strictly
greater than `1 << 62` as absent; the claim says at-or-above is absent. -/
theorem read_memory_sentinel_at_boundary_counterexample :
    (read_cgroup_v1 { emptyCgroupFs with
        memory_limit_in_bytes := some "4611686018427387904" }).2
      = some (2 ^ 62)
    ∧ (2 ^ 62 : Nat) ≥ 2 ^ 62 := by
  refine ⟨by decide, le_refl _⟩

/-- C9 (amended): a v1 limit strictly above `2 ^ 62` is reported absent,
while any limit at or below `2 ^ 62` (the sentinel itself included) is
reported as `Some`; an unreadable limit file is absent; and with neither
v1 nor v2 memory files present, `read_pod_memory` reports usage 0 and no
limit. -/
theorem read_memory_sentinel_and_absent_files (fs : CgroupFs)
    (threshold_env : Option String) :
    (∀ v, read_u64 fs.memory_limit_in_bytes = some v →
        (2 ^ 62 < v → (read_cgroup_v1 fs).2 = none)
        ∧ (v ≤ 2 ^ 62 → (read_cgroup_v1 fs).2 = some v))
    ∧ (read_u64 fs.memory_limit_in_bytes = none →
        (read_cgroup_v1 fs).2 = none)
    ∧ (fs.memory_max = none → fs.memory_limit_in_bytes = none →
        read_pod_memory fs threshold_env
          = { cgroup_usage := 0, cgroup_limit := none, rss_sum := 0,
              terminator_threshold_percent :=
                read_threshold_percent threshold_env }) := by
  refine ⟨?_, ?_, ?_⟩
  · intro v hv
    constructor
    · intro hlt
      simp only [read_cgroup_v1, hv]
      rw [if_pos hlt]
    · intro hle
      simp only [read_cgroup_v1, hv]
      rw [if_neg (by omega : ¬ v > 2 ^ 62)]
  · intro hnone
    simp only [read_cgroup_v1, hnone]
  · intro h1 h2
    simp [read_pod_memory, h1, h2]

/-- Witness for the amended C9: a 5-byte limit is reported as `Some 5`,
and a host with no cgroup files reports usage 0 and no limit. -/
theorem read_memory_sentinel_and_absent_files_witness :
    (read_cgroup_v1 { emptyCgroupFs with
        memory_limit_in_bytes := some "5" }).2 = some 5
    ∧ read_pod_memory emptyCgroupFs none
        = { cgroup_usage := 0, cgroup_limit := none, rss_sum := 0,
            terminator_threshold_percent := read_threshold_percent none } :=
  ⟨((read_memory_sentinel_and_absent_files { emptyCgroupFs with
        memory_limit_in_bytes := some "5" } none).1 5 (by decide)).2
      (by decide),
    (read_memory_sentinel_and_absent_files emptyCgroupFs none).2.2 rfl rfl⟩

/-! ## The application state and the tick (src/app.rs lines 10-253)

The tick's external collaborators are passed in: `collected` is the
result of `proc::collect_processes()` (process enumeration is out of core
scope per spec §1), `pod0` the result of `cgroup::read_pod_memory()`,
`quota` the result of `cgroup::read_cpu_quota()`, `now` the tick's
`Instant::now()`, `wall_secs` the epoch seconds, and `saveIo` the write
outcome for any recording saved this tick, per trigger PID.  Filtering
lowercases ASCII (the Unicode cases of Rust's `to_lowercase` do not occur
in process names the claims touch). -/

/-- `StatusMessage` (src/app.rs lines 56-60). -/
structure StatusMessage where
  text : List Nat
  expires_at : ℚ
  deriving Repr, DecidableEq

/-- `KillConfirmation` (src/app.rs lines 62-67). -/
structure KillConfirmation where
  pid : Nat
  name : List Nat
  is_system : Bool
  deriving Repr, DecidableEq

/-- `SortColumn` (src/app.rs lines 42-54). -/
inductive SortColumn
  | uss
  | pss
  | rss
  | cpu
  | growthRate
  | name
  | pid
  | cmdline
  | diskRead
  | diskWrite
  deriving Repr, DecidableEq

/-- `ViewState` (src/app.rs lines 33-40). -/
structure ViewState where
  sort_column : SortColumn
  sort_ascending : Bool
  filter : List Nat
  selected : Nat
  filter_active : Bool
  deriving Repr, DecidableEq

/-- `RecordingListState` (src/replay.rs lines 12-16). -/
structure RecordingListState where
  recordings : List RecordingMetadata
  selected : Nat
  deriving Repr, DecidableEq

/-- `AppMode` (src/replay.rs lines 5-10). -/
inductive AppMode
  | live
  | recordingList (state : RecordingListState)
  | replay (state : ReplayState ℚ)
  deriving Repr, DecidableEq

/-- `App` (src/app.rs lines 69-83). -/
structure App where
  processes : List (ProcessSnapshot ℚ)
  pod_memory : PodMemorySnapshot
  cpu_cores : Option ℚ
  view_state : ViewState
  growth_windows : List (Nat × List (ℚ × Nat))
  running : Bool
  status_message : Option StatusMessage
  confirm_kill : Option KillConfirmation
  mode : AppMode
  recording_manager : RecordingManager ℚ
  watched_pids : List Nat
  show_cmdline : Option (Nat × List Nat × List Nat)
  deriving Repr, DecidableEq

/-- ASCII lowercasing of one byte (`str::to_lowercase` restricted to
ASCII). -/
def asciiLower (b : Nat) : Nat :=
  if 65 ≤ b ∧ b ≤ 90 then b + 32 else b

def lowerBytes (s : List Nat) : List Nat := s.map asciiLower

def isWsByte (b : Nat) : Bool := b == 32 || b == 9 || b == 10 || b == 13

/-- `str::trim` on filter bytes. -/
def trimBytes (s : List Nat) : List Nat :=
  ((s.dropWhile isWsByte).reverse.dropWhile isWsByte).reverse

/-- `str::contains` as byte-substring search. -/
def containsBytes : List Nat → List Nat → Bool
  | [], needle => needle.isEmpty
  | h :: t, needle => needle.isPrefixOf (h :: t) || containsBytes t needle

/-- Lexicographic byte-string order (`String`'s `Ord`). -/
def cmpBytes : List Nat → List Nat → Ordering
  | [], [] => Ordering.eq
  | [], _ :: _ => Ordering.lt
  | _ :: _, [] => Ordering.gt
  | x :: xs, y :: ys =>
      match compare x y with
      | Ordering.eq => cmpBytes xs ys
      | o => o

/-- The `sort_by` comparator of `App::tick` (src/app.rs lines 162-182);
`total_cmp` on the nonnegative finite floats involved agrees with the
numeric order, and absent rates compare as 0.0 via `unwrap_or`. -/
def processCmp (col : SortColumn) (l r : ProcessSnapshot ℚ) : Ordering :=
  match col with
  | SortColumn.uss => compare l.uss r.uss
  | SortColumn.pss => compare l.pss r.pss
  | SortColumn.rss => compare l.rss r.rss
  | SortColumn.cpu => compare l.cpu_percent r.cpu_percent
  | SortColumn.growthRate =>
      compare (l.growth_rate.getD 0) (r.growth_rate.getD 0)
  | SortColumn.name => cmpBytes l.name r.name
  | SortColumn.pid => compare l.pid r.pid
  | SortColumn.cmdline => cmpBytes l.cmdline r.cmdline
  | SortColumn.diskRead =>
      compare (l.disk_read_rate.getD 0) (r.disk_read_rate.getD 0)
  | SortColumn.diskWrite =>
      compare (l.disk_write_rate.getD 0) (r.disk_write_rate.getD 0)

/-- Stable insertion for `sort_by` (Rust's `sort_by` is stable). -/
def orderedInsert (cmp : α → α → Ordering) (x : α) : List α → List α
  | [] => [x]
  | y :: ys =>
      match cmp x y with
      | Ordering.gt => y :: orderedInsert cmp x ys
      | _ => x :: y :: ys

/-- Stable sort by an `Ordering` comparator. -/
def sortByCmp (cmp : α → α → Ordering) : List α → List α
  | [] => []
  | x :: xs => orderedInsert cmp x (sortByCmp cmp xs)

/-- `HashMap` insert-or-replace for growth windows. -/
def insertWindow (ws : List (Nat × List (ℚ × Nat))) (pid : Nat)
    (w : List (ℚ × Nat)) : List (Nat × List (ℚ × Nat)) :=
  if ws.any (fun e => e.1 == pid) then
    ws.map (fun e => if e.1 == pid then (e.1, w) else e)
  else (pid, w) :: ws

/-- The per-process loop of `App::tick` (src/app.rs lines 151-159): push
`(now, uss)` to the PID's window (`entry().or_default()`), evict from the
front past 10 entries, and set the snapshot's growth rate from the updated
window. -/
def growPass (now : ℚ) :
    List (ProcessSnapshot ℚ) → List (Nat × List (ℚ × Nat)) →
      List (ProcessSnapshot ℚ) × List (Nat × List (ℚ × Nat))
  | [], ws => ([], ws)
  | p :: ps, ws =>
      let w := shrinkToCap 10 (((ws.lookup p.pid).getD []) ++ [(now, p.uss)])
      let ws1 := insertWindow ws p.pid w
      let p1 := { p with growth_rate := compute_growth_rate w }
      let (ps1, ws2) := growPass now ps ws1
      (p1 :: ps1, ws2)

/-- First-occurrence deduplication (a deterministic stand-in for
`HashSet` iteration over `prev_pids.difference(&curr_pids)`). -/
def dedupAux : List Nat → List Nat → List Nat
  | [], _ => []
  | x :: xs, seen =>
      if seen.contains x then dedupAux xs seen
      else x :: dedupAux xs (x :: seen)

def dedupKeepFirst (l : List Nat) : List Nat := dedupAux l []

/-- The watched-PID disappearance loop of `App::tick` (src/app.rs
lines 204-223): for each vanished PID, if watched, look up its old name,
call `save_recording` (a success posts a status message), and remove it
from the watch set regardless of outcome.  Returns the updated manager,
watch set, status message, and the files written. -/
def processVanished (mgr : RecordingManager ℚ) (watched : List Nat)
    (status : Option StatusMessage)
    (old_processes : List (ProcessSnapshot ℚ)) (now : ℚ) (wall_secs : Nat)
    (saveIo : Nat → SaveIo) :
    List Nat →
      RecordingManager ℚ × List Nat × Option StatusMessage
        × List (List Nat × Recording ℚ)
  | [] => (mgr, watched, status, [])
  | pid :: rest =>
      if watched.contains pid then
        let name := ((old_processes.find? (fun p => p.pid == pid)).map
          ProcessSnapshot.name).getD (ascii "unknown")
        let r := mgr.save_recording pid name now wall_secs (saveIo pid)
        let status1 := match r.1 with
          | some count =>
              some { text := ascii "Recording saved: " ++ name
                             ++ ascii " (" ++ decimalBytes count
                             ++ ascii " snapshots)",
                     expires_at := now + 3 }
          | none => status
        let rest1 := processVanished r.2.1 (watched.erase pid) status1
          old_processes now wall_secs saveIo rest
        (rest1.1, rest1.2.1, rest1.2.2.1, r.2.2.toList ++ rest1.2.2.2)
      else processVanished mgr watched status old_processes now wall_secs
        saveIo rest

/-- `App::tick` (src/app.rs lines 137-240). -/
def App.tick (a : App) (now : ℚ) (wall_secs : Nat)
    (collected : List (ProcessSnapshot ℚ)) (pod0 : PodMemorySnapshot)
    (quota : CpuQuota) (saveIo : Nat → SaveIo) :
    App × List (List Nat × Recording ℚ) :=
  let status1 := match a.status_message with
    | some message =>
        if message.expires_at ≤ now then none else some message
    | none => none
  let pod := { pod0 with rss_sum := (collected.map ProcessSnapshot.rss).sum }
  let gp := growPass now collected a.growth_windows
  let seen := collected.map ProcessSnapshot.pid
  let ws2 := gp.2.filter (fun e => seen.contains e.1)
  let sorted := sortByCmp (processCmp a.view_state.sort_column) gp.1
  let sorted2 := if a.view_state.sort_ascending then sorted
    else sorted.reverse
  let fl := lowerBytes (trimBytes a.view_state.filter)
  let filtered := if fl.isEmpty then sorted2
    else sorted2.filter (fun p =>
      containsBytes (lowerBytes p.name) fl
        || containsBytes (lowerBytes p.cmdline) fl)
  let selected := if filtered.isEmpty then 0
    else if a.view_state.selected ≥ filtered.length then filtered.length - 1
    else a.view_state.selected
  let prev_pids := a.processes.map ProcessSnapshot.pid
  let curr_pids := filtered.map ProcessSnapshot.pid
  let vanished := dedupKeepFirst
    (prev_pids.filter (fun pid => !(curr_pids.contains pid)))
  let pv :=
    if a.mode = AppMode.live then
      processVanished a.recording_manager a.watched_pids status1
        a.processes now wall_secs saveIo vanished
    else (a.recording_manager, a.watched_pids, status1, [])
  let mgr2 :=
    if a.mode = AppMode.live then
      pv.1.add_snapshot
        { timestamp := wall_secs, processes := filtered, pod_memory := pod,
          cpu_cores := quota.cores }
    else pv.1
  ({ a with processes := filtered, pod_memory := pod,
            cpu_cores := quota.cores,
            view_state := { a.view_state with selected := selected },
            growth_windows := ws2, status_message := pv.2.2.1,
            recording_manager := mgr2, watched_pids := pv.2.1 }, pv.2.2.2)

/-- A concrete collected process for the C5 cases. -/
def c5_proc : ProcessSnapshot ℚ :=
  { pid := 42, name := ascii "python", cmdline := ascii "python app.py",
    cpu_percent := 0, uss := 1024, pss := 2048, rss := 4096,
    is_system := false, growth_rate := none, disk_read_rate := none,
    disk_write_rate := none }

/-- A concrete pod-memory reading for the C5 cases. -/
def c5_pod : PodMemorySnapshot :=
  { cgroup_usage := 7, cgroup_limit := some 9, rss_sum := 0,
    terminator_threshold_percent := 80 }

/-- A concrete app in Browsing (recording-list) mode. -/
def c5_app : App :=
  { processes := [],
    pod_memory := { cgroup_usage := 0, cgroup_limit := none, rss_sum := 0,
                    terminator_threshold_percent := 80 },
    cpu_cores := none,
    view_state := { sort_column := SortColumn.uss, sort_ascending := false,
                    filter := [], selected := 0, filter_active := false },
    growth_windows := [], running := true, status_message := none,
    confirm_kill := none,
    mode := AppMode.recordingList { recordings := [], selected := 0 },
    recording_manager := { buffer := [], max_snapshots := 300,
                           recordings_dir := ascii "/tmp/rec",
                           last_saved_pids := [] },
    watched_pids := [], show_cmdline := none }

/-- Counterexample to C5 as stated: in Browsing mode (not Live) a tick
still builds the fresh batch — the growth tracker records a new window
entry for the collected process and the pod-memory/quota readings replace
the app's — even though nothing is added to the ring buffer.  The claim
says no fresh batch is built by the sampler/growth-tracker/quota-reader
outside Live mode. -/
theorem tick_builds_batch_in_non_live_counterexample :
    c5_app.mode ≠ AppMode.live
    ∧ c5_app.growth_windows = []
    ∧ (c5_app.tick 1 10 [c5_proc] c5_pod ⟨none⟩
        (fun _ => SaveIo.ok)).1.growth_windows = [(42, [((1 : ℚ), 1024)])]
    ∧ (c5_app.tick 1 10 [c5_proc] c5_pod ⟨none⟩
        (fun _ => SaveIo.ok)).1.pod_memory
      = { cgroup_usage := 7, cgroup_limit := some 9, rss_sum := 4096,
          terminator_threshold_percent := 80 } := by
  refine ⟨by simp [c5_app], rfl, rfl, rfl⟩

theorem processVanished_no_watch (mgr : RecordingManager ℚ)
    (status : Option StatusMessage)
    (old_processes : List (ProcessSnapshot ℚ)) (now : ℚ) (wall_secs : Nat)
    (saveIo : Nat → SaveIo) (l : List Nat) :
    processVanished mgr [] status old_processes now wall_secs saveIo l
      = (mgr, [], status, []) := by
  induction l with
  | nil => rfl
  | cons pid rest ih =>
      have hstep : processVanished mgr [] status old_processes now wall_secs
          saveIo (pid :: rest)
          = processVanished mgr [] status old_processes now wall_secs saveIo
            rest := rfl
      rw [hstep, ih]

/-- C5 (amended): the mode gates only the recording actions, not the
sampling.  In every non-Live tick the ring buffer and debounce state
(the whole `RecordingManager`) and the watch set are unchanged and no
recording file is written — while the fresh inputs still land in
`cpu_cores` and `pod_memory` (and, per the counterexample, the growth
windows).  In a Live tick (shown with an empty watch set) the fresh batch
is appended to the ring buffer. -/
theorem tick_mode_gating (a : App) (now : ℚ) (wall_secs : Nat)
    (collected : List (ProcessSnapshot ℚ)) (pod0 : PodMemorySnapshot)
    (quota : CpuQuota) (saveIo : Nat → SaveIo) :
    (a.mode ≠ AppMode.live →
      (a.tick now wall_secs collected pod0 quota saveIo).1.recording_manager
          = a.recording_manager
      ∧ (a.tick now wall_secs collected pod0 quota saveIo).1.watched_pids
          = a.watched_pids
      ∧ (a.tick now wall_secs collected pod0 quota saveIo).2 = []
      ∧ (a.tick now wall_secs collected pod0 quota saveIo).1.cpu_cores
          = quota.cores
      ∧ (a.tick now wall_secs collected pod0 quota saveIo).1.pod_memory
          = { pod0 with
              rss_sum := (collected.map ProcessSnapshot.rss).sum })
    ∧ (a.mode = AppMode.live → a.watched_pids = [] →
      (a.tick now wall_secs collected pod0 quota saveIo).1.recording_manager
          = a.recording_manager.add_snapshot
            { timestamp := wall_secs,
              processes :=
                (a.tick now wall_secs collected pod0 quota saveIo).1.processes,
              pod_memory :=
                (a.tick now wall_secs collected pod0 quota saveIo).1.pod_memory,
              cpu_cores := quota.cores }
      ∧ (a.tick now wall_secs collected pod0 quota saveIo).2 = []) := by
  constructor
  · intro hmode
    refine ⟨?_, ?_, ?_, ?_, ?_⟩ <;>
      simp [App.tick, hmode]
  · intro hmode hwatch
    constructor
    · simp only [App.tick, hmode, hwatch]
      simp [processVanished_no_watch]
    · simp only [App.tick, hmode, hwatch]
      simp [processVanished_no_watch]

/-- A concrete app in Live mode with an empty watch set. -/
def c5_live_app : App := { c5_app with mode := AppMode.live }

/-- Witness for the amended C5: the Browsing-mode tick leaves the manager
untouched and writes nothing; the Live-mode tick appends the batch. -/
theorem tick_mode_gating_witness :
    ((c5_app.tick 1 10 [c5_proc] c5_pod ⟨none⟩
        (fun _ => SaveIo.ok)).1.recording_manager = c5_app.recording_manager
      ∧ (c5_app.tick 1 10 [c5_proc] c5_pod ⟨none⟩
        (fun _ => SaveIo.ok)).2 = [])
    ∧ (c5_live_app.tick 1 10 [c5_proc] c5_pod ⟨none⟩
        (fun _ => SaveIo.ok)).1.recording_manager
        = c5_live_app.recording_manager.add_snapshot
          { timestamp := 10,
            processes := (c5_live_app.tick 1 10 [c5_proc] c5_pod ⟨none⟩
              (fun _ => SaveIo.ok)).1.processes,
            pod_memory := (c5_live_app.tick 1 10 [c5_proc] c5_pod ⟨none⟩
              (fun _ => SaveIo.ok)).1.pod_memory,
            cpu_cores := none } := by
  have h1 := (tick_mode_gating c5_app 1 10 [c5_proc] c5_pod ⟨none⟩
    (fun _ => SaveIo.ok)).1 (by simp [c5_app])
  have h2 := (tick_mode_gating c5_live_app 1 10 [c5_proc] c5_pod ⟨none⟩
    (fun _ => SaveIo.ok)).2 rfl rfl
  exact ⟨⟨h1.1, h1.2.2.1⟩, h2.1⟩
